import Mathlib

/-!
Verification of the `sigil` Lisp interpreter (Rust) against its
natural-language specification, via a shallow embedding in Lean 4.

The embedding follows the source files:
  * `src/reader.rs`        — combinator-based reader producing `Form`s
  * `src/interpreter.rs`   — the evaluator (`Interpreter::evaluate`)
  * `src/lang/prelude.rs`  — native primitives (`divide`, `throw`, ...)

The value model (`value.rs`) and namespace registry (`namespace.rs`)
are not part of the provided sources; where the embedding needs them
they are modelled from the specification, and marked as such.
-/

namespace Sigil

/-! ## Value model

Modelled from the spec: the central sum type `Value` (spec §3) as used by
`interpreter.rs`.  Persistent lists/vectors are embedded as Lean `List`s,
persistent maps as association lists of pairs, sets as element lists.
`Fn`/`FnWithCaptures`/`Macro` carry the analyzed body, arity, lambda
nesting level and variadic flag (`FnImpl` in the source).  A `Var` is an
`Rc<RefCell<Option<Value>>>` cell plus a namespace and identifier
(`VarImpl`); the embedding stores the cells in a heap inside the
interpreter state and a `var` value carries the cell's index together with
the namespace and identifier strings, so that aliasing (several holders of
one cell, updates through any of them, cells outliving an unintern) behaves
as in the source.  `Primitive` values are identified by the name they are
registered under; `Atom` cells by an index.  `Exception` carries message,
data and the `thrown` flag. -/
inductive Value where
  | nil
  | bool (b : Bool)
  | number (n : Int)
  | string (s : String)
  | keyword (id : String) (ns : Option String)
  | symbol (id : String) (ns : Option String)
  | list (elems : List Value)
  | vector (elems : List Value)
  | map (elems : List (Value × Value))
  | set (elems : List Value)
  | fn (body : List Value) (arity : Nat) (level : Nat) (variadic : Bool)
  | fnWithCaptures (body : List Value) (arity : Nat) (level : Nat) (variadic : Bool)
      (captures : List (String × Option Value))
  | primitive (name : String)
  | var (cell : Nat) (ns : String) (id : String)
  | atom (idx : Nat)
  | macroFn (body : List Value) (arity : Nat) (level : Nat) (variadic : Bool)
  | recur (values : List Value)
  | exception (message : String) (data : Value) (thrown : Bool)

/-! ## Reader forms (`reader.rs`)

`Form::Number` holds a `u64` in the source; it is embedded as a `Nat`
together with the `u64` upper bound checked by `from_str`. -/
inductive Form where
  | nil
  | bool (b : Bool)
  | number (n : Nat)
  | string (s : String)
  | keyword (id : String) (ns : Option String)
  | symbol (id : String) (ns : Option String)
  | comment (s : String)
  | whitespace (s : String)
  | list (elems : List Form)
  | vector (elems : List Form)
  | map (elems : List Form)
  | set (elems : List Form)

/-! ## Evaluation errors (`interpreter.rs`)

The error enums of `interpreter.rs`, with panics (`unreachable!`, `expect`)
modelled as an explicit `panic` variant and fuel exhaustion of the embedding
as `outOfFuel`. -/

inductive SymbolEvaluationError where
  | missingVar (id : String) (ns : String)
  | unableToResolveSymbolToValue (id : String)

inductive ListEvaluationError where
  | cannotInvoke (v : Value)
  | failure (msg : String)
  | quasiquoteError (msg : String)
  | missingCapturedValue (id : String)

inductive SyntaxError where
  | bindingsInLetMustBePaired (bindings : List Value)
  | missingForms
  | lexicalBindingsMustBeVector (v : Value)
  | namesInLetMustNotBeNamespaced (v : Value)
  | namesInLetMustBeSymbols (v : Value)

inductive PrimitiveEvaluationError where
  | failure (msg : String)

inductive InterpreterError where
  | missingNamespace (ns : String)

inductive Err where
  | wrongType (expected : String) (realized : Value)
  | wrongArity (expected : Nat) (realized : Nat)
  | cannotDerefUnboundVar (v : Value)
  | symbol (e : SymbolEvaluationError)
  | list (e : ListEvaluationError)
  | stx (e : SyntaxError)
  | primitive (e : PrimitiveEvaluationError)
  | interpreter (e : InterpreterError)
  | panic (msg : String)
  | outOfFuel

/-! ## Quasiquote expansion (`interpreter.rs` lines 156–249)

`eval_quasiquote_list_inner` in the source receives the elements in
*reversed* order and folds left over them; the embedding below performs the
identical computation as a right fold over the original order (the
accumulator for the tail is computed before the head element is folded in,
exactly as the source processes later elements first). -/

mutual

/-- `eval_quasiquote_list_inner` (source lines 156–212). -/
def eval_quasiquote_list_inner : List Value → Except Err Value
  | [] => .ok (.list [])
  | .list inner :: rest => do
    let acc ← eval_quasiquote_list_inner rest
    match inner.head? with
    | some (.symbol "splice-unquote" none) =>
      -- source: `inner.drop_first()` is `Some` for any non-empty list; the
      -- `else` branch raising "type error to `splice-unquote`" is
      -- unreachable once `inner.first()` matched
      match inner with
      | _ :: innerRest =>
        match innerRest.head? with
        | some second =>
          .ok (.list [.symbol "concat" (some "core"), second, acc])
        | none => .ok acc
      | [] => .error (.list (.quasiquoteError "type error to `splice-unquote`"))
    | some _ => do
      let q ← eval_quasiquote (.list inner)
      .ok (.list [.symbol "cons" (some "core"), q, acc])
    | none => .ok (.list [.symbol "cons" (some "core"), .list [], acc])
  | form :: rest => do
    let acc ← eval_quasiquote_list_inner rest
    let q ← eval_quasiquote form
    .ok (.list [.symbol "cons" (some "core"), q, acc])
  termination_by l => (sizeOf l, 0)

/-- `eval_quasiquote_list` (source lines 213–231); the source checks
`elems.first()` for the `unquote` symbol and re-traverses via
`elems.drop_first()` (always `Some` on a non-empty list). -/
def eval_quasiquote_list : List Value → Except Err Value
  | [] => .ok (.list [])
  | .symbol "unquote" none :: rest =>
    (match rest.head? with
      | some argument => .ok argument
      | none => .error (.list (.quasiquoteError "type error to `unquote`")))
  | first :: rest => eval_quasiquote_list_inner (first :: rest)
  termination_by l => (sizeOf l, 1)

/-- `eval_quasiquote_vector` (source lines 232–238). -/
def eval_quasiquote_vector (elems : List Value) : Except Err Value := do
  let inner ← eval_quasiquote_list_inner elems
  .ok (.list [.symbol "vec" (some "core"), inner])
  termination_by (sizeOf elems, 1)

/-- `eval_quasiquote` (source lines 239–249). -/
def eval_quasiquote : Value → Except Err Value
  | .list elems => eval_quasiquote_list elems
  | .vector elems => eval_quasiquote_vector elems
  | .map m => .ok (.list [.symbol "quote" none, .map m])
  | .symbol id ns => .ok (.list [.symbol "quote" none, .symbol id ns])
  | v => .ok v
  termination_by v => (sizeOf v, 2)

end

/-! ### Specification-side quasiquote (claim C4)

`quasiquoteSpec` follows the words of the claim/spec §4.5 exactly: the
emitted operator symbols are the bare `concat`, `cons`, `vec`, `quote`, the
splice rule fires on elements of shape `(splice-unquote e)`, and any other
element `y` contributes `(cons (quasiquote y) acc)`.  The claim leaves a
list `(unquote)` without a second element unspecified; the definition
returns the form unchanged there (no theorem below depends on that case). -/

mutual

def quasiquoteSpecFold : List Value → Value
  | [] => .list []
  | .list [.symbol "splice-unquote" none, e] :: rest =>
    .list [.symbol "concat" none, e, quasiquoteSpecFold rest]
  | y :: rest =>
    .list [.symbol "cons" none, quasiquoteSpec y, quasiquoteSpecFold rest]
  termination_by l => (sizeOf l, 0)

def quasiquoteSpec : Value → Value
  | .list (.symbol "unquote" none :: rest) =>
    rest.head?.getD (.list (.symbol "unquote" none :: rest))
  | .list elems => quasiquoteSpecFold elems
  | .vector elems => .list [.symbol "vec" none, quasiquoteSpecFold elems]
  | .map m => .list [.symbol "quote" none, .map m]
  | .symbol id ns => .list [.symbol "quote" none, .symbol id ns]
  | v => v
  termination_by v => (sizeOf v, 1)

end

/-! ### Amended specification-side quasiquote (claim C4)

The spec algorithm amended only as far as the code forces:
  * the emitted operator symbols are namespace-qualified `core/concat`,
    `core/cons`, `core/vec` (`quote` stays unqualified);
  * the splice rule fires on any list element whose head is the bare symbol
    `splice-unquote`: with an argument `e` it contributes `(core/concat e
    acc)`, and with no argument the element contributes nothing;
  * a list `(unquote)` with no second element is a quasiquote error. -/

mutual

def quasiquoteSpecAmendedFold : List Value → Except Err Value
  | [] => .ok (.list [])
  | .list (.symbol "splice-unquote" none :: es) :: rest => do
    let acc ← quasiquoteSpecAmendedFold rest
    match es.head? with
    | some e => .ok (.list [.symbol "concat" (some "core"), e, acc])
    | none => .ok acc
  | y :: rest => do
    let acc ← quasiquoteSpecAmendedFold rest
    let q ← quasiquoteSpecAmended y
    .ok (.list [.symbol "cons" (some "core"), q, acc])
  termination_by l => (sizeOf l, 0)

def quasiquoteSpecAmended : Value → Except Err Value
  | .list (.symbol "unquote" none :: rest) =>
    (match rest.head? with
      | some argument => .ok argument
      | none => .error (.list (.quasiquoteError "type error to `unquote`")))
  | .list elems => quasiquoteSpecAmendedFold elems
  | .vector elems => do
    let inner ← quasiquoteSpecAmendedFold elems
    .ok (.list [.symbol "vec" (some "core"), inner])
  | .map m => .ok (.list [.symbol "quote" none, .map m])
  | .symbol id ns => .ok (.list [.symbol "quote" none, .symbol id ns])
  | v => .ok v
  termination_by v => (sizeOf v, 1)

end

/-! ## The division primitive (`lang/prelude.rs` lines 184–229)

Numbers are `i64` in the source; the embedding carries `Int` together with
the explicit `i64` bounds where overflow matters.  Rust's
`i64::checked_div_euclid` returns `None` exactly when the divisor is `0` or
the division is `i64::MIN / -1` (the one overflowing case), and otherwise
Euclidean division, which is Lean's `Int.ediv`. -/

def i64Min : Int := -(2 ^ 63)

def checked_div_euclid (a b : Int) : Option Int :=
  if b = 0 ∨ (a = i64Min ∧ b = -1) then none else some (Int.ediv a b)

/-- The `try_fold` over the rest of the arguments in `divide`. -/
def divideFold (acc : Int) : List Value → Except Err Int
  | [] => .ok acc
  | .number next :: rest =>
    match checked_div_euclid acc next with
    | some r => divideFold r rest
    | none => .error (.primitive (.failure "overflow detected"))
  | _ :: _ => .error (.primitive (.failure "divide only takes number arguments"))

/-- The `divide` primitive (`lang/prelude.rs`): with no argument an error,
with one numeric argument `1.checked_div_euclid(n)`, with more a left fold
of checked Euclidean division. -/
def divide (args : List Value) : Except Err Value :=
  match args with
  | [] => .error (.primitive (.failure "divide needs more than 0 args"))
  | [arg] =>
    match arg with
    | .number first =>
      match checked_div_euclid 1 first with
      | some r => .ok (.number r)
      | none => .error (.primitive (.failure "overflow detected"))
    | _ => .error (.primitive (.failure "divide requires number arguments"))
  | .number first :: rest => (divideFold first rest).map Value.number
  | _ :: _ => .error (.primitive (.failure "divide only takes number arguments"))

/-! ## Interpreter state (`interpreter.rs`)

The `Interpreter` struct holds the current namespace name, the namespace
registry, and the stack of lexical scopes (`Vec<Scope>`, the last element
being the innermost scope).  A `Scope` is a `HashMap<String, Value>`,
embedded as an association list where insertion replaces an existing
binding.  A namespace (`namespace.rs`, not among the sources — modelled
from spec §4.2) maps identifiers to var cells; the cells themselves live in
`varHeap`, `none` marking an unbound var. -/

abbrev Scope := List (String × Value)

/-- Association-list lookup: the first binding of the key. -/
def assocGet {α : Type} : List (String × α) → String → Option α
  | [], _ => none
  | (k, v) :: rest, key => if k = key then some v else assocGet rest key

/-- Association-list insert: replaces the first binding of the key, else
appends (the embedding of `HashMap::insert`). -/
def assocPut {α : Type} : List (String × α) → String → α → List (String × α)
  | [], key, value => [(key, value)]
  | (k, v) :: rest, key, value =>
    if k = key then (k, value) :: rest else (k, v) :: assocPut rest key value

/-- Association-list removal of the first binding of the key
(the embedding of `HashMap::remove`). -/
def assocRemove {α : Type} : List (String × α) → String → List (String × α)
  | [], _ => []
  | (k, v) :: rest, key =>
    if k = key then rest else (k, v) :: assocRemove rest key

structure InterpState where
  currentNamespace : String
  namespaces : List (String × List (String × Nat))
  varHeap : List (Option Value)
  scopes : List Scope

/-- `SPECIAL_FORMS` (`interpreter.rs` lines 27–44). -/
def SPECIAL_FORMS : List String :=
  ["def!", "var", "let*", "loop*", "recur", "if", "do", "fn*",
   "quote", "quasiquote", "unquote", "splice-unquote",
   "defmacro!", "macroexpand", "try*", "catch*"]

/-- The default scope built in `Interpreter::default`: each special form
resolves to itself so that it falls through to the evaluator's dispatch. -/
def defaultScope : Scope :=
  SPECIAL_FORMS.map (fun s => (s, Value.symbol s none))

/-- Modelled from the spec: the name of the "default" namespace holding
user bindings (`DEFAULT_NAME` in `namespace.rs`, not among the sources;
spec §4.2 — the exact string is immaterial to every theorem below). -/
def DEFAULT_NAMESPACE : String := "default"

/-- `lambda_parameter_key` (source lines 126–130). -/
def lambda_parameter_key (index : Nat) (level : Nat) : String :=
  ":system-fn-%" ++ toString index ++ "/" ++ toString level

/-- `get_lambda_parameter_level` (source lines 132–141): parses the LAST
character of the key as the level digit. -/
def get_lambda_parameter_level (key : String) : Option Nat :=
  if key.startsWith ":system-fn-%" then
    key.toList.getLast?.bind fun c =>
      if c.isDigit then some (c.toNat - Char.toNat '0') else none
  else none

/-- `resolve_symbol_in_scopes` (source lines 144–154): the caller passes
the scopes from most specific to least specific (`.iter().rev()` on the
scope stack). -/
def resolve_symbol_in_scopes : List Scope → String → Option Value
  | [], _ => none
  | scope :: rest, identifier =>
    match assocGet scope identifier with
    | some value => some value
    | none => resolve_symbol_in_scopes rest identifier

/-! ### Exception helpers

Modelled from the spec: `exception`, `exception_is_thrown`,
`exception_from_thrown` and `exception_into_thrown` live in `value.rs`,
which is not among the sources.  Spec §3: `Exception { message, data,
thrown? }` distinguishes a constructed exception from one in flight; §7:
`try*` resets `thrown` to `false` when binding into `catch*`. -/

def exceptionValue (msg : String) (data : Value) : Value :=
  .exception msg data false

def exception_is_thrown : Value → Bool
  | .exception _ _ thrown => thrown
  | _ => false

def exception_from_thrown : Value → Value
  | .exception m d _ => .exception m d false
  | v => v

def exception_into_thrown : Value → Value
  | .exception m d _ => .exception m d true
  | v => v

/-! ### Display strings

Modelled from the spec: the `Display` implementations live in `value.rs`,
not among the sources; the rendering below follows the printed forms shown
in the spec's concrete scenarios.  Only the error-message plumbing of the
evaluator consumes these strings, and no theorem below depends on their
exact text beyond what the evaluator concatenates. -/

mutual

def valueToString : Value → String
  | .nil => "nil"
  | .bool b => toString b
  | .number n => toString n
  | .string s => "\"" ++ s ++ "\""
  | .keyword id ns =>
    ":" ++ (match ns with | some n => n ++ "/" | none => "") ++ id
  | .symbol id ns =>
    (match ns with | some n => n ++ "/" | none => "") ++ id
  | .list elems => "(" ++ valueListToString elems ++ ")"
  | .vector elems => "[" ++ valueListToString elems ++ "]"
  | .map pairs => "\x7b" ++ valuePairsToString pairs ++ "\x7d"
  | .set elems => "#\x7b" ++ valueListToString elems ++ "\x7d"
  | .fn .. => "<fn*>"
  | .fnWithCaptures .. => "<fn* +captures>"
  | .primitive _ => "<native function>"
  | .var _ ns id => "#'" ++ ns ++ "/" ++ id
  | .atom _ => "<atom>"
  | .macroFn .. => "<macro>"
  | .recur _ => "<recur>"
  | .exception m d thrown =>
    (if thrown then "thrown " else "") ++ "exception: " ++ m ++ ", " ++ valueToString d
  termination_by v => (sizeOf v, 1)

def valueListToString : List Value → String
  | [] => ""
  | [v] => valueToString v
  | v :: rest => valueToString v ++ " " ++ valueListToString rest
  termination_by l => (sizeOf l, 0)

def valuePairsToString : List (Value × Value) → String
  | [] => ""
  | [(k, v)] => valueToString k ++ " " ++ valueToString v
  | (k, v) :: rest =>
    valueToString k ++ " " ++ valueToString v ++ ", " ++ valuePairsToString rest
  termination_by l => (sizeOf l, 0)

end

/-- Display of `SymbolEvaluationError` (`thiserror` formats, lines 47–53). -/
def symbolErrString : SymbolEvaluationError → String
  | .missingVar id ns => "var `" ++ id ++ "` not found in namespace `" ++ ns ++ "`"
  | .unableToResolveSymbolToValue id => "symbol " ++ id ++ " could not be resolved"

/-- Display of `ListEvaluationError` (lines 55–65). -/
def listErrString : ListEvaluationError → String
  | .cannotInvoke v => "cannot invoke the supplied value " ++ valueToString v
  | .failure msg => "some failure: " ++ msg
  | .quasiquoteError msg => "error evaluating quasiquote: " ++ msg
  | .missingCapturedValue id => "missing value for captured symbol `" ++ id ++ "`"

/-- Display of `SyntaxError` (lines 85–97). -/
def stxErrString : SyntaxError → String
  | .bindingsInLetMustBePaired _ => "bindings in `let` form must be pairs of names and values"
  | .missingForms => "expected further forms when parsing data"
  | .lexicalBindingsMustBeVector v =>
    "expected vector of lexical bindings instead of " ++ valueToString v
  | .namesInLetMustNotBeNamespaced v =>
    "names in `let` form must not be namespaced like " ++ valueToString v
  | .namesInLetMustBeSymbols v =>
    "names in `let` form must be symbols unlike " ++ valueToString v

/-- Display of `EvaluationError` (lines 99–120). -/
def errString : Err → String
  | .wrongType expected realized =>
    "form invoked with an argument of the incorrect type: expected a value of type(s) `"
      ++ expected ++ "` but found value `" ++ valueToString realized ++ "`"
  | .wrongArity expected realized =>
    "form invoked with incorrect arity: provided " ++ toString realized
      ++ " arguments but expected " ++ toString expected ++ " arguments"
  | .cannotDerefUnboundVar v => "cannot deref an unbound var `" ++ valueToString v ++ "`"
  | .symbol e => "symbol error: " ++ symbolErrString e
  | .list e => "list error: " ++ listErrString e
  | .stx e => "syntax error: " ++ stxErrString e
  | .primitive (.failure msg) => "primitive error: something failed " ++ msg
  | .interpreter (.missingNamespace ns) =>
    "interpreter error: namespace " ++ ns ++ " not found"
  | .panic msg => "panic: " ++ msg
  | .outOfFuel => "out of fuel"

/-! ### Namespace, var and scope operations (`interpreter.rs` lines 566–675)

`intern_unbound`, `remove` and `get` of `namespace.rs` are modelled from
spec §4.2; a var's cell lives on `varHeap` and stays allocated after an
unintern, exactly as an `Rc` cell outliving its registry entry. -/

namespace InterpState

/-- Cell read: `var_impl_into_inner` (`value.rs`, modelled from the spec):
the var's current value, or `none` for an unbound var. -/
def derefCell (σ : InterpState) (cell : Nat) : Option Value :=
  (σ.varHeap.getD cell none)

/-- `Var::update` — write the cell. -/
def updateCell (σ : InterpState) (cell : Nat) (value : Value) : InterpState :=
  { σ with varHeap := σ.varHeap.set cell (some value) }

/-- Allocate a fresh var cell holding `slot`; returns the state and index. -/
def allocCell (σ : InterpState) (slot : Option Value) : InterpState × Nat :=
  ({ σ with varHeap := σ.varHeap ++ [slot] }, σ.varHeap.length)

/-- `var_with_value` (`value.rs`, modelled from the spec): a fresh detached
var holding `value`, with the given namespace and identifier strings. -/
def var_with_value (σ : InterpState) (value : Value) (ns id : String) :
    InterpState × Value :=
  let (σ', cell) := σ.allocCell (some value)
  (σ', .var cell ns id)

/-- `intern_unbound_var` (source lines 583–596): create an unbound var for
`identifier` in the current namespace (modelled from spec §4.2
`intern-unbound`). -/
def intern_unbound_var (σ : InterpState) (identifier : String) :
    InterpState × Value :=
  let ns := σ.currentNamespace
  let (σ', cell) := σ.allocCell none
  let nsMap := (assocGet σ'.namespaces ns).getD []
  ({ σ' with namespaces := assocPut σ'.namespaces ns (assocPut nsMap identifier cell) },
   .var cell ns identifier)

/-- `unintern_var` (source lines 598–606): remove the identifier from the
current namespace (the cell stays on the heap, as the `Rc` does). -/
def unintern_var (σ : InterpState) (identifier : String) : InterpState :=
  let ns := σ.currentNamespace
  match assocGet σ.namespaces ns with
  | some nsMap =>
    { σ with namespaces := assocPut σ.namespaces ns (assocRemove nsMap identifier) }
  | none => σ

/-- `resolve_var_in_namespace` (source lines 615–632). -/
def resolve_var_in_namespace (σ : InterpState) (identifier : String)
    (nsDesc : String) : Except Err Value :=
  match assocGet σ.namespaces nsDesc with
  | none => .error (.interpreter (.missingNamespace nsDesc))
  | some nsMap =>
    match assocGet nsMap identifier with
    | some cell => .ok (.var cell nsDesc identifier)
    | none => .error (.symbol (.missingVar identifier nsDesc))

/-- `resolve_var_in_current_namespace` (source lines 609–612). -/
def resolve_var_in_current_namespace (σ : InterpState) (identifier : String) :
    Except Err Value :=
  σ.resolve_var_in_namespace identifier σ.currentNamespace

/-- `resolve_symbol_to_var` (source lines 634–650): namespace-qualified
symbols resolve in that namespace, then the lexical scopes innermost-first,
then the current namespace. -/
def resolve_symbol_to_var (σ : InterpState) (identifier : String)
    (nsOpt : Option String) : Except Err Value :=
  match nsOpt with
  | some nsDesc => σ.resolve_var_in_namespace identifier nsDesc
  | none =>
    match resolve_symbol_in_scopes σ.scopes.reverse identifier with
    | some value => .ok value
    | none => σ.resolve_var_in_current_namespace identifier

/-- `resolve_symbol` (source lines 652–660): a bound var dereferences to
its value, an unbound var evaluates to itself. -/
def resolve_symbol (σ : InterpState) (identifier : String)
    (nsOpt : Option String) : Except Err Value :=
  match σ.resolve_symbol_to_var identifier nsOpt with
  | .ok (.var cell ns id) =>
    match σ.derefCell cell with
    | some value => .ok value
    | none => .ok (.var cell ns id)
  | .ok other => .ok other
  | .error e => .error e

/-- `enter_scope` (source lines 662–664). -/
def enter_scope (σ : InterpState) : InterpState :=
  { σ with scopes := σ.scopes ++ [[]] }

/-- `insert_value_in_current_scope` (source lines 666–671); the source
`expect`s at least one scope and the embedding leaves the state unchanged
in that unreachable case. -/
def insert_value_in_current_scope (σ : InterpState) (identifier : String)
    (value : Value) : InterpState :=
  match σ.scopes.getLast? with
  | some scope =>
    { σ with scopes := σ.scopes.dropLast ++ [assocPut scope identifier value] }
  | none => σ

/-- `leave_scope` (source lines 673–675). -/
def leave_scope (σ : InterpState) : InterpState :=
  { σ with scopes := σ.scopes.dropLast }

end InterpState

/-- `update_captures` (source lines 419–435): resolve every still-`None`
capture from the live scope stack. -/
def update_captures (σ : InterpState) :
    List (String × Option Value) → Except Err (List (String × Option Value))
  | [] => .ok []
  | (capture, value) :: rest => do
    let value' ←
      match value with
      | some v => Except.ok (some v)
      | none =>
        match resolve_symbol_in_scopes σ.scopes.reverse capture with
        | some v => Except.ok (some v)
        | none => Except.error (Err.symbol (.unableToResolveSymbolToValue capture))
    let rest' ← update_captures σ rest
    .ok ((capture, value') :: rest')

/-- `extend_from_captures` (source lines 1159–1175): push a scope holding
the captured bindings; on a missing capture the scope is popped again and
an error raised. -/
def extend_from_captures (σ : InterpState) :
    List (String × Option Value) → InterpState × Except Err Unit :=
  fun captures => go (σ.enter_scope) captures
where
  go (σ : InterpState) : List (String × Option Value) → InterpState × Except Err Unit
    | [] => (σ, .ok ())
    | (capture, value) :: rest =>
      match value with
      | some v => go (σ.insert_value_in_current_scope capture v) rest
      | none =>
        (σ.leave_scope, .error (.list (.missingCapturedValue capture)))

/-! ### `let*` analysis (`interpreter.rs` lines 253–387) -/

mutual

/-- `resolve_forward_declarations_in_let_form` (source lines 257–315):
collect, in traversal order, the binding names referenced inside a binding
value (unqualified symbols among `names`), recursing into collections and
function bodies. -/
def resolveForwardDeclsInForm (names : List String) : Value → List String
  | .symbol s none => if s ∈ names then [s] else []
  | .symbol _ (some _) => []
  | .list elems => resolveForwardDeclsInList names elems
  | .vector elems => resolveForwardDeclsInList names elems
  | .map pairs => resolveForwardDeclsInPairs names pairs
  | .set elems => resolveForwardDeclsInList names elems
  | .fn body .. => resolveForwardDeclsInList names body
  | .fnWithCaptures body .. => resolveForwardDeclsInList names body
  | _ => []
  termination_by v => (sizeOf v, 1)

def resolveForwardDeclsInList (names : List String) : List Value → List String
  | [] => []
  | v :: rest =>
    resolveForwardDeclsInForm names v ++ resolveForwardDeclsInList names rest
  termination_by l => (sizeOf l, 0)

def resolveForwardDeclsInPairs (names : List String) :
    List (Value × Value) → List String
  | [] => []
  | (k, v) :: rest =>
    resolveForwardDeclsInForm names k ++ resolveForwardDeclsInForm names v
      ++ resolveForwardDeclsInPairs names rest
  termination_by l => (sizeOf l, 0)

end

/-- `LetBindings::resolve_forward_declarations` (source lines 317–327). -/
def resolve_forward_declarations (bindings : List (String × Value)) : List String :=
  let names := bindings.map Prod.fst
  (bindings.map Prod.snd).flatMap (resolveForwardDeclsInForm names)

/-- The pair-validation loop of `parse_let_bindings`: names must be
unqualified symbols.  An unpaired trailing element cannot occur (the caller
checked the length is even; `tuples()` would drop it). -/
def validateLetPairs : List Value → Except Err (List (String × Value))
  | [] => .ok []
  | .symbol s none :: value :: rest => do
    let tl ← validateLetPairs rest
    .ok ((s, value) :: tl)
  | .symbol s (some ns) :: _ :: _ =>
    .error (.stx (.namesInLetMustNotBeNamespaced (.symbol s (some ns))))
  | other :: _ :: _ => .error (.stx (.namesInLetMustBeSymbols other))
  | [_] => .ok []

/-- `parse_let_bindings` (source lines 343–371). -/
def parse_let_bindings : Value → Except Err (List (String × Value))
  | .vector bindings =>
    if bindings.length % 2 = 0 then validateLetPairs bindings
    else .error (.stx (.bindingsInLetMustBePaired bindings))
  | other => .error (.stx (.lexicalBindingsMustBeVector other))

/-- `parse_let` / `analyze_let` (source lines 373–387): the bindings vector
and the body forms of a `let*`/`loop*` tail. -/
def parse_let (forms : List Value) : Except Err (List (String × Value) × List Value) :=
  match forms with
  | [] => .error (.stx .missingForms)
  | bindingsForm :: body => do
    let bindings ← parse_let_bindings bindingsForm
    .ok (bindings, body)

/-! ### `fn*` parameter analysis (`analyze_symbols_in_fn`, lines 932–977)

The parameter loop of `analyze_symbols_in_fn`: each parameter at position
`k` is rewritten to the reserved token `lambda_parameter_key k level`; a
`&` at position `count - 2` makes the following symbol the variadic
parameter (bound under key `count - 2`). -/

def buildFnParams (level : Nat) (paramCount : Nat) :
    Nat → Scope → List Value → Except Err (Scope × Bool)
  | _, acc, [] => .ok (acc, false)
  | index, acc, param :: rest =>
    if 2 ≤ paramCount ∧ index = paramCount - 2 then
      match param with
      | .symbol "&" none =>
        match rest with
        | .symbol s none :: _ =>
          -- the symbol after `&` sits at `index + 1`; the source binds it
          -- under `lambda_parameter_key(index + 1 - 1, level)`
          .ok (assocPut acc s (.symbol (lambda_parameter_key index level) none), true)
        | _ :: _ =>
          .error (.list (.failure
            "could not evaluate `fn*`: variadic binding must be a symbol"))
        | [] =>
          .error (.list (.failure
            "could not evaluate `fn*`: variadic binding missing after `&`"))
      | .symbol s none =>
        buildFnParams level paramCount (index + 1)
          (assocPut acc s (.symbol (lambda_parameter_key index level) none)) rest
      | _ =>
        .error (.list (.failure
          "could not evaluate `fn*`: parameters must be non-namespaced symbols"))
    else
      match param with
      | .symbol s none =>
        buildFnParams level paramCount (index + 1)
          (assocPut acc s (.symbol (lambda_parameter_key index level) none)) rest
      | _ =>
        .error (.list (.failure
          "could not evaluate `fn*`: parameters must be non-namespaced symbols"))

/-! ### Native primitives (`lang/prelude.rs`)

Only the primitives a theorem below exercises are wired into the table;
each is embedded from its source. -/

/-- The `throw` primitive (`lang/prelude.rs` lines 791–829): wrap the
argument into an exception (strings/collections/scalars), pass an existing
exception through, and mark the result as thrown. -/
def throwPrim (args : List Value) : Except Err Value :=
  if args.length ≠ 1 then
    .error (.list (.failure "wrong arity"))
  else
    match args.head? with
    | some arg =>
      match arg with
      | .nil | .bool _ | .number _ | .string _ | .keyword _ _ | .symbol _ _
      | .list _ | .vector _ | .map _ | .set _ =>
        .ok (exception_into_thrown (exceptionValue "" arg))
      | .exception m d t => .ok (exception_into_thrown (.exception m d t))
      | _ => .error (.list (.failure "incorrect argument"))
    | none => .error (.list (.failure "wrong arity"))

/-- The `ex-info` primitive (`lang/prelude.rs` lines 777–790). -/
def exInfoPrim (args : List Value) : Except Err Value :=
  match args with
  | [.string msg, data] => .ok (exceptionValue msg data)
  | [_, _] => .error (.list (.failure "incorrect argument"))
  | _ => .error (.list (.failure "wrong arity"))

/-- The native-function table: primitive values name their implementation;
a name outside the table is a primitive evaluation error (such primitives
exist in the source but no theorem exercises them). -/
def nativeFn (name : String) (σ : InterpState) (args : List Value) :
    InterpState × Except Err Value :=
  match name with
  | "throw" => (σ, throwPrim args)
  | "ex-info" => (σ, exInfoPrim args)
  | "/" => (σ, divide args)
  | _ => (σ, .error (.primitive (.failure ("unmodelled primitive " ++ name))))

/-! ## The evaluator (`interpreter.rs` lines 677–1708)

Every function of the mutual block below takes a fuel argument and passes
one unit less to each callee; exhausted fuel yields the distinguished
`Err.outOfFuel` (the source recursion is unbounded).  `eval_var` takes no
recursive step and is defined before the block. -/

abbrev EvalRes := InterpState × Except Err Value

/-- `eval_var` (source lines 1232–1245). -/
def eval_var (σ : InterpState) (forms : List Value) : EvalRes :=
  match forms with
  | _ :: rest =>
    match rest.head? with
    | some (.symbol s nsOpt) =>
      match nsOpt with
      | some nsDesc => (σ, σ.resolve_var_in_namespace s nsDesc)
      | none => (σ, σ.resolve_var_in_current_namespace s)
    | _ => (σ, .error (.list (.failure "could not evaluate `var`")))
  | [] => (σ, .error (.list (.failure "could not evaluate `var`")))

/-- Insert a capture into the innermost capture set (`captures.last_mut()`,
a `HashSet`, so duplicates are dropped); the source `expect`s a non-empty
capture stack and that case is unreachable from the call sites. -/
def insertCapture (sets : List (List String)) (id : String) : List (List String) :=
  match sets.getLast? with
  | some last => sets.dropLast ++ [if id ∈ last then last else last ++ [id]]
  | none => sets

/-- Insert a hoisted capture into the capture set at `lvl`
(`captures.get_mut(level)` in the fn*/catch* arms of `analyze_list_in_fn`). -/
def insertCaptureAt (sets : List (List String)) (lvl : Nat) (id : String) :
    List (List String) :=
  match sets.get? lvl with
  | some s => sets.set lvl (if id ∈ s then s else s ++ [id])
  | none => sets

/-- The capture hoisting loop shared by the `fn*` and `catch*` arms of
`analyze_list_in_fn`: every captured name whose encoded level lies below
the current lambda's level is inserted into that level's capture set. -/
def hoistCaptures (currentFnLevel : Nat) :
    List (List String) → List String → List (List String)
  | sets, [] => sets
  | sets, capture :: rest =>
    let sets' :=
      match get_lambda_parameter_level capture with
      | some lvl => if lvl < currentFnLevel then insertCaptureAt sets lvl capture else sets
      | none => sets
    hoistCaptures currentFnLevel sets' rest

/-- The analyzer-scope construction of the `let*` arm of
`analyze_list_in_fn`: every binding name (a non-namespaced symbol) maps to
itself, shielding it from parameter rewriting. -/
def letAnalyzerScope : List Value → Except Err Scope
  | [] => .ok []
  | .symbol s none :: _ :: rest => do
    let scope ← letAnalyzerScope rest
    .ok (assocPut scope s (.symbol s none))
  | _ :: _ :: _ => .error (.list (.failure "could not analyze `let*`"))
  | [_] => .ok []

/-- As `letAnalyzerScope`, for the `loop*` arm (its own error message). -/
def loopAnalyzerScope : List Value → Except Err Scope
  | [] => .ok []
  | .symbol s none :: _ :: rest => do
    let scope ← loopAnalyzerScope rest
    .ok (assocPut scope s (.symbol s none))
  | _ :: _ :: _ => .error (.list (.failure "could not analyze `loop*`"))
  | [_] => .ok []

/-! ## Initial states for the concrete theorems

`Interpreter::default` starts with the single default scope (special forms
resolving to themselves) and the default namespace; the prelude
registration and bootstrap source are not replayed here — the states below
carry exactly the bindings the theorems exercise. -/

def initialState : InterpState :=
  { currentNamespace := DEFAULT_NAMESPACE,
    namespaces := [(DEFAULT_NAMESPACE, [])],
    varHeap := [],
    scopes := [defaultScope] }

/-- `initialState` with the `throw` primitive interned (as
`prelude::register` does for the full prelude). -/
def stateWithThrow : InterpState :=
  { currentNamespace := DEFAULT_NAMESPACE,
    namespaces := [(DEFAULT_NAMESPACE, [("throw", 0)])],
    varHeap := [some (.primitive "throw")],
    scopes := [defaultScope] }

set_option maxHeartbeats 2000000 in
mutual

/-- `evaluate` (source lines 1640–1708). -/
def evaluateF : Nat → InterpState → Value → EvalRes
  | 0, σ, _ => (σ, .error .outOfFuel)
  | fuel + 1, σ, form =>
    match form with
    | .nil => (σ, .ok .nil)
    | .bool b => (σ, .ok (.bool b))
    | .number n => (σ, .ok (.number n))
    | .string s => (σ, .ok (.string s))
    | .keyword id nsOpt => (σ, .ok (.keyword id nsOpt))
    | .symbol id nsOpt => (σ, σ.resolve_symbol id nsOpt)
    | .list forms => evalListF fuel σ forms
    | .vector forms =>
      match evalSeqF fuel σ forms with
      | (σ', .ok values) => (σ', .ok (.vector values))
      | (σ', .error e) => (σ', .error e)
    | .map pairs =>
      match evalPairsF fuel σ pairs with
      | (σ', .ok values) => (σ', .ok (.map values))
      | (σ', .error e) => (σ', .error e)
    | .set forms =>
      match evalSeqF fuel σ forms with
      | (σ', .ok values) => (σ', .ok (.set values))
      | (σ', .error e) => (σ', .error e)
    | .var cell ns id =>
      match σ.derefCell cell with
      | some value => (σ, .ok value)
      | none => (σ, .ok (.var cell ns id))
    | .fn body arity level variadic => (σ, .ok (.fn body arity level variadic))
    | .fnWithCaptures body arity level variadic captures =>
      match update_captures σ captures with
      | .ok captures' => (σ, .ok (.fnWithCaptures body arity level variadic captures'))
      | .error e => (σ, .error e)
    | .primitive name => (σ, .ok (.primitive name))
    | .recur _ => (σ, .error (.panic "evaluate: Recur is unreachable"))
    | .atom idx => (σ, .ok (.atom idx))
    | .macroFn .. => (σ, .error (.panic "evaluate: Macro is unreachable"))
    | .exception .. => (σ, .error (.panic "evaluate: Exception is unreachable"))
  termination_by structural f _ _ => f

/-- The `evaluate(form)?` loops over a sequence of forms (vector and set
elements, `recur` arguments, primitive operands): evaluate in order,
propagating the first error unchanged. -/
def evalSeqF : Nat → InterpState → List Value → InterpState × Except Err (List Value)
  | 0, σ, _ => (σ, .error .outOfFuel)
  | fuel + 1, σ, forms =>
    match forms with
    | [] => (σ, .ok [])
    | form :: rest =>
      match evaluateF fuel σ form with
      | (σ', .ok value) =>
        match evalSeqF fuel σ' rest with
        | (σ'', .ok values) => (σ'', .ok (value :: values))
        | (σ'', .error e) => (σ'', .error e)
      | (σ', .error e) => (σ', .error e)
  termination_by structural f _ _ => f

/-- The map-evaluation loop of `evaluate`: key then value, in order
(`insert_mut` key replacement of the persistent map is not modelled; no
theorem touches a map with duplicate keys). -/
def evalPairsF : Nat → InterpState → List (Value × Value) →
    InterpState × Except Err (List (Value × Value))
  | 0, σ, _ => (σ, .error .outOfFuel)
  | fuel + 1, σ, pairs =>
    match pairs with
    | [] => (σ, .ok [])
    | (k, v) :: rest =>
      match evaluateF fuel σ k with
      | (σ₁, .ok key) =>
        match evaluateF fuel σ₁ v with
        | (σ₂, .ok value) =>
          match evalPairsF fuel σ₂ rest with
          | (σ₃, .ok values) => (σ₃, .ok ((key, value) :: values))
          | (σ₃, .error e) => (σ₃, .error e)
        | (σ₂, .error e) => (σ₂, .error e)
      | (σ₁, .error e) => (σ₁, .error e)
  termination_by structural f _ _ => f

/-- `eval_list` (source lines 1599–1638). -/
def evalListF : Nat → InterpState → List Value → EvalRes
  | 0, σ, _ => (σ, .error .outOfFuel)
  | fuel + 1, σ, forms =>
    match forms with
    | [] => (σ, .ok (.list []))
    | operatorForm :: _ =>
      match getMacroExpansionF fuel σ operatorForm forms with
      | some (σ', .ok (.list forms')) => evalListF fuel σ' forms'
      | some (σ', .ok other) => evaluateF fuel σ' other
      | some (σ', .error e) => (σ', .error e)
      | none =>
        -- the source guards each arm with `Value::Symbol(s, None) if s == …`;
        -- the chain of string comparisons below mirrors those guards
        let applyOperator : Unit → EvalRes := fun _ =>
          match evaluateF fuel σ operatorForm with
          | (σ', .ok (.fn body arity level variadic)) =>
            applyFnF fuel σ' body arity level variadic forms
          | (σ', .ok (.fnWithCaptures body arity level variadic captures)) =>
            match extend_from_captures σ' captures with
            | (σ'', .ok ()) =>
              match applyFnF fuel σ'' body arity level variadic forms with
              | (σ₃, result) => (σ₃.leave_scope, result)
            | (σ'', .error e) => (σ'', .error e)
          | (σ', .ok (.primitive name)) => applyPrimitiveF fuel σ' name forms
          | (σ', .ok v) => (σ', .error (.list (.cannotInvoke v)))
          | (σ', .error e) => (σ', .error e)
        match operatorForm with
        | .symbol s none =>
          if s = "def!" then evalDefF fuel σ forms
          else if s = "var" then eval_var σ forms
          else if s = "let*" then evalLetF fuel σ forms
          else if s = "loop*" then evalLoopF fuel σ forms
          else if s = "recur" then evalRecurF fuel σ forms
          else if s = "if" then evalIfF fuel σ forms
          else if s = "do" then evalDoF fuel σ forms
          else if s = "fn*" then evalFnF fuel σ forms
          else if s = "quote" then evalQuoteF fuel σ forms
          else if s = "quasiquote" then evalQuasiquoteFormF fuel σ forms
          else if s = "defmacro!" then evalDefmacroF fuel σ forms
          else if s = "macroexpand" then evalMacroexpandF fuel σ forms
          else if s = "try*" then evalTryF fuel σ forms
          else applyOperator ()
        | _ => applyOperator ()
  termination_by structural f _ _ => f

/-- `get_macro_expansion` (source lines 1575–1597): `none` when the head
does not resolve to a macro (the state is untouched then). -/
def getMacroExpansionF (fuel : Nat) (σ : InterpState) (form : Value)
    (forms : List Value) : Option EvalRes :=
  match fuel with
  | 0 => some (σ, .error .outOfFuel)
  | fuel + 1 =>
    match form with
    | .symbol identifier nsOpt =>
      match σ.resolve_symbol identifier nsOpt with
      | .ok (.macroFn body arity level variadic) =>
        some (applyMacroF fuel σ body arity level variadic forms)
      | _ => none
    | .var cell _ _ =>
      match σ.derefCell cell with
      | some (.macroFn body arity level variadic) =>
        some (applyMacroF fuel σ body arity level variadic forms)
      | _ => none
    | _ => none
  termination_by structural fuel

/-- `apply_macro` (source lines 1007–1032). -/
def applyMacroF : Nat → InterpState → List Value → Nat → Nat → Bool →
    List Value → EvalRes
  | 0, σ, _, _, _, _, _ => (σ, .error .outOfFuel)
  | fuel + 1, σ, body, arity, level, variadic, forms =>
    match forms with
    | _ :: rest =>
      match applyFnInnerF fuel σ body arity level variadic rest false with
      | (σ', .ok (.list forms')) => expandMacroIfPresentF fuel σ' forms'
      | (σ', .ok result) => (σ', .ok result)
      | (σ', .error e) =>
        (σ', .error (.list (.failure ("could not apply macro: " ++ errString e))))
    | [] => (σ, .error (.list (.failure "could not apply macro")))
  termination_by structural f _ _ _ _ _ _ => f

/-- `expand_macro_if_present` (source lines 1034–1047). -/
def expandMacroIfPresentF : Nat → InterpState → List Value → EvalRes
  | 0, σ, _ => (σ, .error .outOfFuel)
  | fuel + 1, σ, forms =>
    match forms.head? with
    | some form =>
      match getMacroExpansionF fuel σ form forms with
      | some (σ', result) => (σ', result)
      | none => (σ, .ok (.list forms))
    | none => (σ, .ok (.list []))
  termination_by structural f _ _ => f

/-- The operand-binding loop of `apply_fn_inner` over the first `arity`
arguments; an evaluation error pops the freshly entered scope and is
wrapped. -/
def bindParamsF : Nat → InterpState → Nat → Bool → Nat → List Value →
    InterpState × Except Err Unit
  | 0, σ, _, _, _, _ => (σ, .error .outOfFuel)
  | fuel + 1, σ, level, shouldEvaluate, index, operands =>
    match operands with
    | [] => (σ, .ok ())
    | operandForm :: rest =>
      let step : InterpState × Except Err Value :=
        if shouldEvaluate then
          match evaluateF fuel σ operandForm with
          | (σ', .ok operand) => (σ', .ok operand)
          | (σ', .error e) =>
            (σ'.leave_scope,
             .error (.list (.failure ("could not apply `fn*`: " ++ errString e))))
        else (σ, .ok operandForm)
      match step with
      | (σ', .ok operand) =>
        bindParamsF fuel
          (σ'.insert_value_in_current_scope (lambda_parameter_key index level) operand)
          level shouldEvaluate (index + 1) rest
      | (σ', .error e) => (σ', .error e)
  termination_by structural f _ _ _ _ _ => f

/-- The variadic-collection loop of `apply_fn_inner` over the remaining
arguments. -/
def collectVariadicF : Nat → InterpState → Bool → List Value →
    InterpState × Except Err (List Value)
  | 0, σ, _, _ => (σ, .error .outOfFuel)
  | fuel + 1, σ, shouldEvaluate, operands =>
    match operands with
    | [] => (σ, .ok [])
    | elemForm :: rest =>
      let step : InterpState × Except Err Value :=
        if shouldEvaluate then
          match evaluateF fuel σ elemForm with
          | (σ', .ok elem) => (σ', .ok elem)
          | (σ', .error e) =>
            (σ'.leave_scope,
             .error (.list (.failure ("could not apply `fn*`: " ++ errString e))))
        else (σ, .ok elemForm)
      match step with
      | (σ', .ok elem) =>
        match collectVariadicF fuel σ' shouldEvaluate rest with
        | (σ'', .ok elems) => (σ'', .ok (elem :: elems))
        | (σ'', .error e) => (σ'', .error e)
      | (σ', .error e) => (σ', .error e)
  termination_by structural f _ _ _ => f

/-- `apply_fn_inner` (source lines 1051–1124).  Note: a failing
`update_captures` on an escaping `FnWithCaptures` result propagates through
`?` *without* the closing `leave_scope`, exactly as in the source. -/
def applyFnInnerF : Nat → InterpState → List Value → Nat → Nat → Bool →
    List Value → Bool → EvalRes
  | 0, σ, _, _, _, _, _, _ => (σ, .error .outOfFuel)
  | fuel + 1, σ, body, arity, level, variadic, args, shouldEvaluate =>
    let correctArity := if variadic then arity ≤ args.length else args.length = arity
    if ¬ correctArity then
      (σ, .error (.list (.failure "could not apply `fn*`: incorrect arity")))
    else
      let σ := σ.enter_scope
      match bindParamsF fuel σ level shouldEvaluate 0 (args.take arity) with
      | (σ, .error e) => (σ, .error e)
      | (σ, .ok ()) =>
        let afterVariadic : InterpState × Except Err Unit :=
          if variadic then
            match collectVariadicF fuel σ shouldEvaluate (args.drop arity) with
            | (σ', .ok variadicArgs) =>
              (σ'.insert_value_in_current_scope (lambda_parameter_key arity level)
                (.list variadicArgs), .ok ())
            | (σ', .error e) => (σ', .error e)
          else (σ, .ok ())
        match afterVariadic with
        | (σ, .error e) => (σ, .error e)
        | (σ, .ok ()) =>
          match evalDoInnerF fuel σ body with
          | (σ, .ok (.fnWithCaptures f a l v captures)) =>
            match update_captures σ captures with
            | .ok captures' =>
              (σ.leave_scope, .ok (.fnWithCaptures f a l v captures'))
            | .error e => (σ, .error e)
          | (σ, result) => (σ.leave_scope, result)
  termination_by structural f _ _ _ _ _ _ _ => f

/-- `apply_fn` (source lines 1126–1142). -/
def applyFnF : Nat → InterpState → List Value → Nat → Nat → Bool →
    List Value → EvalRes
  | 0, σ, _, _, _, _, _ => (σ, .error .outOfFuel)
  | fuel + 1, σ, body, arity, level, variadic, args =>
    match args with
    | _ :: rest => applyFnInnerF fuel σ body arity level variadic rest true
    | [] => (σ, .error (.list (.failure "could not apply `fn*`")))
  termination_by structural f _ _ _ _ _ _ => f

/-- `apply_primitive` (source lines 1144–1157). -/
def applyPrimitiveF : Nat → InterpState → String → List Value → EvalRes
  | 0, σ, _, _ => (σ, .error .outOfFuel)
  | fuel + 1, σ, name, args =>
    match args with
    | _ :: rest =>
      match evalSeqF fuel σ rest with
      | (σ', .ok operands) => nativeFn name σ' operands
      | (σ', .error e) => (σ', .error e)
    | [] => nativeFn name σ []
  termination_by structural f _ _ _ => f

/-- `eval_def` (source lines 1177–1230): reuse the existing var or
pre-intern an unbound one, evaluate the value form, update the var on
success, unintern a freshly created var on failure. -/
def evalDefF : Nat → InterpState → List Value → EvalRes
  | 0, σ, _ => (σ, .error .outOfFuel)
  | fuel + 1, σ, forms =>
    match forms with
    | _ :: rest =>
      match rest with
      | .symbol id none :: rest2 =>
        match rest2.head? with
        | some valueForm =>
          let pre : Except Err (InterpState × Value × Bool) :=
            match σ.resolve_var_in_current_namespace id with
            | .ok (.var cell ns ident) => .ok (σ, .var cell ns ident, true)
            | .error (.symbol (.missingVar _ _)) =>
              match σ.intern_unbound_var id with
              | (σ₁, var) => .ok (σ₁, var, false)
            | .error e => .error e
            | .ok _ => .error (.panic "eval_def: non-var from namespace")
          match pre with
          | .error e => (σ, .error e)
          | .ok (σ₁, var, varAlreadyExists) =>
            match evaluateF fuel σ₁ valueForm with
            | (σ₂, .ok value) =>
              match var with
              | .var cell _ _ => (σ₂.updateCell cell value, .ok var)
              | _ => (σ₂, .error (.panic "eval_def: var expected"))
            | (σ₂, .error e) =>
              let σ₃ := if varAlreadyExists then σ₂ else σ₂.unintern_var id
              (σ₃, .error (.list (.failure ("could not evaluate `def!`: " ++ errString e))))
        | none =>
          match σ.intern_unbound_var id with
          | (σ₁, var) => (σ₁, .ok var)
      | _ => (σ, .error (.list (.failure "could not evaluate `def!`")))
    | [] => (σ, .error (.list (.failure "could not evaluate `def!`")))
  termination_by structural f _ _ => f

/-- The binding-evaluation loop of `eval_let` (source lines 1259–1274): on
success either update a forward-declared var found in scope or insert the
value; an evaluation error pops the let scope before propagating. -/
def evalLetBindingsF : Nat → InterpState → List (String × Value) →
    InterpState × Except Err Unit
  | 0, σ, _ => (σ, .error .outOfFuel)
  | fuel + 1, σ, bindings =>
    match bindings with
    | [] => (σ, .ok ())
    | (identifier, valueForm) :: rest =>
      match evaluateF fuel σ valueForm with
      | (σ', .ok value) =>
        let σ'' :=
          match resolve_symbol_in_scopes σ'.scopes.reverse identifier with
          | some (.var cell _ _) => σ'.updateCell cell value
          | _ => σ'.insert_value_in_current_scope identifier value
        evalLetBindingsF fuel σ'' rest
      | (σ', .error e) => (σ'.leave_scope, .error e)
  termination_by structural f _ _ => f

/-- `eval_let` (source lines 1247–1277). -/
def evalLetF : Nat → InterpState → List Value → EvalRes
  | 0, σ, _ => (σ, .error .outOfFuel)
  | fuel + 1, σ, forms =>
    match forms with
    | [] => (σ, .error (.stx .missingForms))
    | _ :: letForms =>
      match parse_let letForms with
      | .error e => (σ, .error e)
      | .ok (bindings, body) =>
        let σ := σ.enter_scope
        -- forward declarations: a fresh detached var per name, inserted
        -- into the let scope
        let σ := (resolve_forward_declarations bindings).foldl
          (fun σ forward =>
            match σ.var_with_value .nil "" forward with
            | (σ', var) => σ'.insert_value_in_current_scope forward var) σ
        match evalLetBindingsF fuel σ bindings with
        | (σ, .error e) => (σ, .error e)
        | (σ, .ok ()) =>
          match evalDoInnerF fuel σ body with
          | (σ, result) => (σ.leave_scope, result)
  termination_by structural f _ _ => f

/-- The binding loop of `eval_loop` (source lines 1290–1306): evaluate each
binding value and insert it into the loop scope.  A non-symbol name pops
the scope and errors; an *evaluation* error propagates through `?` without
any `leave_scope` (the scope leak of claim C1). -/
def evalLoopBindingsF : Nat → InterpState → List Value →
    InterpState × Except Err (List String)
  | 0, σ, _ => (σ, .error .outOfFuel)
  | fuel + 1, σ, elems =>
    match elems with
    | [] => (σ, .ok [])
    | .symbol s none :: valueForm :: rest =>
      match evaluateF fuel σ valueForm with
      | (σ', .ok value) =>
        match evalLoopBindingsF fuel (σ'.insert_value_in_current_scope s value) rest with
        | (σ'', .ok keys) => (σ'', .ok (s :: keys))
        | (σ'', .error e) => (σ'', .error e)
      | (σ', .error e) => (σ', .error e)
    | _ :: _ :: _ =>
      (σ.leave_scope, .error (.list (.failure "could not evaluate `loop*`")))
    | [_] => (σ, .ok [])
  termination_by structural f _ _ => f

/-- The `while let Ok(Value::Recur(..))` loop of `eval_loop` (source lines
1307–1325). -/
def evalLoopRecurF : Nat → InterpState → List String → List Value →
    InterpState × Except Err Value → EvalRes
  | 0, σ, _, _, _ => (σ, .error .outOfFuel)
  | fuel + 1, _, bindingsKeys, body, (σ, result) =>
    match result with
    | .ok (.recur nextBindings) =>
      if nextBindings.length ≠ bindingsKeys.length then
        (σ.leave_scope,
         .error (.list (.failure
           "could not evaluate `loop*`: recur with incorrect number of bindings")))
      else
        let σ := (bindingsKeys.zip nextBindings).foldl
          (fun σ kv => σ.insert_value_in_current_scope kv.1 kv.2) σ
        evalLoopRecurF fuel σ bindingsKeys body (evalDoInnerF fuel σ body)
    | _ => (σ.leave_scope, result)
  termination_by structural f _ _ _ _ => f

/-- `eval_loop` (source lines 1279–1333). -/
def evalLoopF : Nat → InterpState → List Value → EvalRes
  | 0, σ, _ => (σ, .error .outOfFuel)
  | fuel + 1, σ, forms =>
    match forms with
    | _ :: rest =>
      match rest with
      | .vector elems :: body =>
        if elems.length % 2 = 0 then
          if body.isEmpty then (σ, .ok .nil)
          else
            let σ := σ.enter_scope
            match evalLoopBindingsF fuel σ elems with
            | (σ', .error e) => (σ', .error e)
            | (σ', .ok bindingsKeys) =>
              evalLoopRecurF fuel σ' bindingsKeys body (evalDoInnerF fuel σ' body)
        else (σ, .error (.list (.failure "could not evaluate `loop*`")))
      | _ => (σ, .error (.list (.failure "could not evaluate `loop*`")))
    | [] => (σ, .error (.list (.failure "could not evaluate `loop*`")))
  termination_by structural f _ _ => f

/-- `eval_recur` (source lines 1335–1347). -/
def evalRecurF : Nat → InterpState → List Value → EvalRes
  | 0, σ, _ => (σ, .error .outOfFuel)
  | fuel + 1, σ, forms =>
    match forms with
    | _ :: rest =>
      match evalSeqF fuel σ rest with
      | (σ', .ok values) => (σ', .ok (.recur values))
      | (σ', .error e) => (σ', .error e)
    | [] => (σ, .error (.list (.failure "could not evaluate `recur`")))
  termination_by structural f _ _ => f

/-- `eval_if` (source lines 1349–1384): `Bool(false)` and `Nil` select the
alternate (or `Nil` when absent); every other predicate value selects the
consequent. -/
def evalIfF : Nat → InterpState → List Value → EvalRes
  | 0, σ, _ => (σ, .error .outOfFuel)
  | fuel + 1, σ, forms =>
    match forms with
    | _ :: predicateForm :: rest2 =>
      match rest2.head? with
      | some consequentForm =>
        match evaluateF fuel σ predicateForm with
        | (σ', .error e) => (σ', .error e)
        | (σ', .ok predicateValue) =>
          match predicateValue with
          | .bool true => evaluateF fuel σ' consequentForm
          | .bool false =>
            (match rest2 with
              | _ :: rest3 =>
                match rest3.head? with
                | some alternate => evaluateF fuel σ' alternate
                | none => (σ', .ok .nil)
              | [] => (σ', .error (.list (.failure "could not evaluate `if`"))))
          | .nil =>
            (match rest2 with
              | _ :: rest3 =>
                match rest3.head? with
                | some alternate => evaluateF fuel σ' alternate
                | none => (σ', .ok .nil)
              | [] => (σ', .error (.list (.failure "could not evaluate `if`"))))
          | _ => evaluateF fuel σ' consequentForm
      | none => (σ, .error (.list (.failure "could not evaluate `if`")))
    | _ => (σ, .error (.list (.failure "could not evaluate `if`")))
  termination_by structural f _ _ => f

/-- `eval_do_inner` (source lines 1386–1395): evaluate in order, halting on
an error or on a thrown exception, returning the last value (`Nil` for an
empty sequence). -/
def evalDoInnerF : Nat → InterpState → List Value → EvalRes
  | 0, σ, _ => (σ, .error .outOfFuel)
  | fuel + 1, σ, forms =>
    match forms with
    | [] => (σ, .ok .nil)
    | form :: rest =>
      match evaluateF fuel σ form with
      | (σ', .ok value) =>
        if exception_is_thrown value then (σ', .ok value)
        else
          match rest with
          | [] => (σ', .ok value)
          | _ => evalDoInnerF fuel σ' rest
      | (σ', .error e) => (σ', .error e)
  termination_by structural f _ _ => f

/-- `eval_do` (source lines 1397–1404). -/
def evalDoF : Nat → InterpState → List Value → EvalRes
  | 0, σ, _ => (σ, .error .outOfFuel)
  | fuel + 1, σ, forms =>
    match forms with
    | _ :: rest => evalDoInnerF fuel σ rest
    | [] => (σ, .error (.list (.failure "could not evaluate `do`")))
  termination_by structural f _ _ => f

/-- `eval_fn` (source lines 1406–1419). -/
def evalFnF : Nat → InterpState → List Value → EvalRes
  | 0, σ, _ => (σ, .error .outOfFuel)
  | fuel + 1, σ, forms =>
    match forms with
    | _ :: .vector params :: body =>
      match analyzeSymbolsInFnF fuel σ body params [] [] with
      | (σ', _, _, result) => (σ', result)
    | _ => (σ, .error (.list (.failure "could not evaluate `fn*`")))
  termination_by structural f _ _ => f

/-- `eval_quote` (source lines 1421–1432). -/
def evalQuoteF : Nat → InterpState → List Value → EvalRes
  | 0, σ, _ => (σ, .error .outOfFuel)
  | _ + 1, σ, forms =>
    match forms with
    | _ :: rest =>
      if rest.length = 1 then
        match rest.head? with
        | some form => (σ, .ok form)
        | none => (σ, .error (.list (.failure "could not evaluate `quote`")))
      else (σ, .error (.list (.failure "could not evaluate `quote`")))
    | [] => (σ, .error (.list (.failure "could not evaluate `quote`")))

/-- `eval_quasiquote` of the evaluator (source lines 1434–1444): expand via
the pure `eval_quasiquote` and evaluate the expansion. -/
def evalQuasiquoteFormF : Nat → InterpState → List Value → EvalRes
  | 0, σ, _ => (σ, .error .outOfFuel)
  | fuel + 1, σ, forms =>
    match forms with
    | _ :: second :: _ =>
      match eval_quasiquote second with
      | .ok expansion => evaluateF fuel σ expansion
      | .error e => (σ, .error e)
    | _ => (σ, .error (.list (.failure "could not evaluate `quasiquote`")))
  termination_by structural f _ _ => f

/-- `eval_defmacro` (source lines 1446–1468). -/
def evalDefmacroF : Nat → InterpState → List Value → EvalRes
  | 0, σ, _ => (σ, .error .outOfFuel)
  | fuel + 1, σ, forms =>
    match evalDefF fuel σ forms with
    | (σ', .ok (.var cell ns id)) =>
      match σ'.derefCell cell with
      | some (.fn body arity level variadic) =>
        (σ'.updateCell cell (.macroFn body arity level variadic), .ok (.var cell ns id))
      | _ =>
        (σ'.unintern_var id,
         .error (.list (.failure
           "could not evaluate `defmacro!`: body must be `fn*` without captures")))
    | (σ', .error e) =>
      (σ', .error (.list (.failure ("could not evaluate `defmacro!`: " ++ errString e))))
    | (σ', .ok _) => (σ', .error (.panic "eval_defmacro: unreachable"))
  termination_by structural f _ _ => f

/-- `eval_macroexpand` (source lines 1470–1475) with `do_to_exactly_one_arg`
(source lines 389–410) inlined: exactly one argument, evaluate it, and
expand a list result if its head names a macro. -/
def evalMacroexpandF : Nat → InterpState → List Value → EvalRes
  | 0, σ, _ => (σ, .error .outOfFuel)
  | fuel + 1, σ, forms =>
    match forms with
    | [] => (σ, .error (.wrongArity 1 0))
    | _ :: args =>
      if args.length ≠ 1 then (σ, .error (.wrongArity 1 args.length))
      else
        match args.head? with
        | some arg =>
          match evaluateF fuel σ arg with
          | (σ', .ok (.list elems)) => expandMacroIfPresentF fuel σ' elems
          | (σ', .ok other) => (σ', .ok other)
          | (σ', .error e) => (σ', .error e)
        | none => (σ, .error (.wrongArity 1 0))
  termination_by structural f _ _ => f

/-- `eval_try` (source lines 1477–1573): analyze a trailing
`(catch* ex body…)` as a unary lambda over `ex`, evaluate the non-catch
forms, and on a thrown exception bind the un-thrown payload into a fresh
scope around the catch body; with no catch clause the thrown exception is
returned as the (successful) result. -/
def evalTryF : Nat → InterpState → List Value → EvalRes
  | 0, σ, _ => (σ, .error .outOfFuel)
  | fuel + 1, σ, forms =>
    match forms with
    | [] => (σ, .error (.list (.failure "could not evaluate `try*`")))
    | _ :: rest =>
      let catchDet : InterpState × Except Err (Option Value) :=
        match rest.getLast? with
        | some (.list lastForm) =>
          match lastForm.head? with
          | some (.symbol "catch*" none) =>
            (match lastForm with
              | _ :: catchForm =>
                match catchForm.head? with
                | some (.symbol exId none) =>
                  (match catchForm with
                    | _ :: exceptionBody =>
                      match analyzeSymbolsInFnF fuel σ exceptionBody
                          [.symbol exId none] [] [] with
                      | (σ₁, _, _, .ok body) => (σ₁, .ok (some body))
                      | (σ₁, _, _, .error e) => (σ₁, .error e)
                    | [] => (σ, .ok none))
                | some _ =>
                  (σ, .error (.list (.failure "could not evaluate `catch*`")))
                | none => (σ, .ok none)
              | [] => (σ, .error (.list (.failure "could not evaluate `catch*`"))))
          | _ => (σ, .ok none)
        | some (.fn body arity level variadic) =>
          (σ, .ok (some (.fn body arity level variadic)))
        | some (.fnWithCaptures body arity level variadic captures) =>
          (σ, .ok (some (.fnWithCaptures body arity level variadic captures)))
        | _ => (σ, .ok none)
      match catchDet with
      | (σ₁, .error e) => (σ₁, .error e)
      | (σ₁, .ok catchForm) =>
        let formsToEval := if catchForm.isNone then rest else rest.dropLast
        match evalDoInnerF fuel σ₁ formsToEval with
        | (σ₂, .error e) => (σ₂, .error e)
        | (σ₂, .ok v) =>
          if exception_is_thrown v then
            match catchForm with
            | some (.fn body _ level _) =>
              let σ₃ := σ₂.enter_scope
              let σ₃ := σ₃.insert_value_in_current_scope
                (lambda_parameter_key 0 level) (exception_from_thrown v)
              match evalDoInnerF fuel σ₃ body with
              | (σ₄, result) => (σ₄.leave_scope, result)
            | some (.fnWithCaptures body _ level _ captures) =>
              match update_captures σ₂ captures with
              | .error e => (σ₂, .error e)
              | .ok captures' =>
                match extend_from_captures σ₂ captures' with
                | (σ₃, .error e) => (σ₃, .error e)
                | (σ₃, .ok ()) =>
                  let σ₄ := σ₃.enter_scope
                  let σ₄ := σ₄.insert_value_in_current_scope
                    (lambda_parameter_key 0 level) (exception_from_thrown v)
                  match evalDoInnerF fuel σ₄ body with
                  | (σ₅, result) => (σ₅.leave_scope.leave_scope, result)
            | _ => (σ₂, .ok v)
          else (σ₂, .ok v)
  termination_by structural f _ _ => f

/-- `analyze_symbols_in_fn` (source lines 932–1005): build the parameter
scope, walk the body with it pushed, and return the analyzed `Fn`. -/
def analyzeSymbolsInFnF : Nat → InterpState → List Value → List Value →
    List Scope → List (List String) →
    InterpState × List Scope × List (List String) × Except Err Value
  | 0, σ, _, _, scopes, captures => (σ, scopes, captures, .error .outOfFuel)
  | fuel + 1, σ, body, params, lambdaScopes, captures =>
    let level := lambdaScopes.length
    match buildFnParams level params.length 0 [] params with
    | .error e => (σ, lambdaScopes, captures, .error e)
    | .ok (parameters, variadic) =>
      let arity := if variadic then parameters.length - 1 else parameters.length
      let lambdaScopes := lambdaScopes ++ [parameters]
      match analyzeBodyF fuel σ body lambdaScopes captures level with
      | (σ', scopes', captures', .ok analyzedBody) =>
        (σ', scopes'.dropLast, captures', .ok (.fn analyzedBody arity level variadic))
      | (σ', scopes', captures', .error e) => (σ', scopes', captures', .error e)
  termination_by structural f _ _ _ _ _ => f

/-- The body loop of `analyze_symbols_in_fn` and the generic element loop
of `analyze_list_in_fn`: analyze each form in order, threading state,
scopes and captures. -/
def analyzeBodyF : Nat → InterpState → List Value → List Scope →
    List (List String) → Nat →
    InterpState × List Scope × List (List String) × Except Err (List Value)
  | 0, σ, _, scopes, captures, _ => (σ, scopes, captures, .error .outOfFuel)
  | fuel + 1, σ, forms, scopes, captures, level =>
    match forms with
    | [] => (σ, scopes, captures, .ok [])
    | form :: rest =>
      match analyzeFormInFnF fuel σ form scopes captures level with
      | (σ', scopes', captures', .ok analyzed) =>
        match analyzeBodyF fuel σ' rest scopes' captures' level with
        | (σ'', scopes'', captures'', .ok analyzedRest) =>
          (σ'', scopes'', captures'', .ok (analyzed :: analyzedRest))
        | (σ'', scopes'', captures'', .error e) => (σ'', scopes'', captures'', .error e)
      | (σ', scopes', captures', .error e) => (σ', scopes', captures', .error e)
  termination_by structural f _ _ _ _ _ => f

/-- The pair loop of `analyze_form_in_fn` for maps. -/
def analyzePairsF : Nat → InterpState → List (Value × Value) → List Scope →
    List (List String) → Nat →
    InterpState × List Scope × List (List String) × Except Err (List (Value × Value))
  | 0, σ, _, scopes, captures, _ => (σ, scopes, captures, .error .outOfFuel)
  | fuel + 1, σ, pairs, scopes, captures, level =>
    match pairs with
    | [] => (σ, scopes, captures, .ok [])
    | (k, v) :: rest =>
      match analyzeFormInFnF fuel σ k scopes captures level with
      | (σ₁, scopes₁, captures₁, .ok ak) =>
        match analyzeFormInFnF fuel σ₁ v scopes₁ captures₁ level with
        | (σ₂, scopes₂, captures₂, .ok av) =>
          match analyzePairsF fuel σ₂ rest scopes₂ captures₂ level with
          | (σ₃, scopes₃, captures₃, .ok arest) =>
            (σ₃, scopes₃, captures₃, .ok ((ak, av) :: arest))
          | (σ₃, scopes₃, captures₃, .error e) => (σ₃, scopes₃, captures₃, .error e)
        | (σ₂, scopes₂, captures₂, .error e) => (σ₂, scopes₂, captures₂, .error e)
      | (σ₁, scopes₁, captures₁, .error e) => (σ₁, scopes₁, captures₁, .error e)
  termination_by structural f _ _ _ _ _ => f

/-- `analyze_form_in_fn` (source lines 845–929): rewrite symbols through
the analyzer scopes (collecting captures of outer-level parameters),
resolve free symbols to vars, expand macros, and recurse into collections. -/
def analyzeFormInFnF : Nat → InterpState → Value → List Scope →
    List (List String) → Nat →
    InterpState × List Scope × List (List String) × Except Err Value
  | 0, σ, _, scopes, captures, _ => (σ, scopes, captures, .error .outOfFuel)
  | fuel + 1, σ, form, scopes, captures, level =>
    match form with
    | .symbol identifier nsOpt =>
      (match resolve_symbol_in_scopes scopes.reverse identifier with
        | some value =>
          let captures' :=
            match value with
            | .symbol resolvedIdentifier none =>
              (match get_lambda_parameter_level resolvedIdentifier with
                | some requestedLevel =>
                  if requestedLevel < level then insertCapture captures resolvedIdentifier
                  else captures
                | none => captures)
            | _ => captures
          (σ, scopes, captures', .ok value)
        | none =>
          (σ, scopes, captures, σ.resolve_symbol_to_var identifier nsOpt))
    | .list elems =>
      (match elems.head? with
        | none => (σ, scopes, captures, .ok (.list []))
        | some first =>
          match getMacroExpansionF fuel σ first elems with
          | some (σ', .ok (.list elems')) =>
            analyzeListInFnF fuel σ' elems' scopes captures level
          | some (σ', .ok other) =>
            analyzeFormInFnF fuel σ' other scopes captures level
          | some (σ', .error e) => (σ', scopes, captures, .error e)
          | none => analyzeListInFnF fuel σ elems scopes captures level)
    | .vector elems =>
      (match analyzeBodyF fuel σ elems scopes captures level with
        | (σ', scopes', captures', .ok analyzed) =>
          (σ', scopes', captures', .ok (.vector analyzed))
        | (σ', scopes', captures', .error e) => (σ', scopes', captures', .error e))
    | .map pairs =>
      (match analyzePairsF fuel σ pairs scopes captures level with
        | (σ', scopes', captures', .ok analyzed) =>
          (σ', scopes', captures', .ok (.map analyzed))
        | (σ', scopes', captures', .error e) => (σ', scopes', captures', .error e))
    | .set elems =>
      (match analyzeBodyF fuel σ elems scopes captures level with
        | (σ', scopes', captures', .ok analyzed) =>
          (σ', scopes', captures', .ok (.set analyzed))
        | (σ', scopes', captures', .error e) => (σ', scopes', captures', .error e))
    | .fn .. => (σ, scopes, captures, .error (.panic "analyze_form_in_fn: Fn unreachable"))
    | .fnWithCaptures .. =>
      (σ, scopes, captures, .error (.panic "analyze_form_in_fn: FnWithCaptures unreachable"))
    | .primitive _ =>
      (σ, scopes, captures, .error (.panic "analyze_form_in_fn: Primitive unreachable"))
    | .recur _ => (σ, scopes, captures, .error (.panic "analyze_form_in_fn: Recur unreachable"))
    | .macroFn .. =>
      (σ, scopes, captures, .error (.panic "analyze_form_in_fn: Macro unreachable"))
    | .exception .. =>
      (σ, scopes, captures, .error (.panic "analyze_form_in_fn: Exception unreachable"))
    | other => (σ, scopes, captures, .ok other)
  termination_by structural f _ _ _ _ _ => f

/-- The binding-pair loop of the `let*`/`loop*` arms of
`analyze_list_in_fn`: analyze each value form, emitting the alternating
`name, analyzed-value` vector elements. -/
def analyzeLetBindingsF : Nat → InterpState → List Value → List Scope →
    List (List String) → Nat →
    InterpState × List Scope × List (List String) × Except Err (List Value)
  | 0, σ, _, scopes, captures, _ => (σ, scopes, captures, .error .outOfFuel)
  | fuel + 1, σ, bindings, scopes, captures, level =>
    match bindings with
    | name :: value :: rest =>
      (match analyzeFormInFnF fuel σ value scopes captures level with
        | (σ', scopes', captures', .ok analyzedValue) =>
          match analyzeLetBindingsF fuel σ' rest scopes' captures' level with
          | (σ'', scopes'', captures'', .ok analyzedRest) =>
            (σ'', scopes'', captures'', .ok (name :: analyzedValue :: analyzedRest))
          | (σ'', scopes'', captures'', .error e) => (σ'', scopes'', captures'', .error e)
        | (σ', scopes', captures', .error e) => (σ', scopes', captures', .error e))
    | _ => (σ, scopes, captures, .ok [])
  termination_by structural f _ _ _ _ _ => f

/-- `analyze_list_in_fn` (source lines 677–843).  The head may introduce an
analyzer scope (`let*`, `loop*`, `quote` over a symbol) or a nested lambda
(`fn*`, `catch*`, both returning early); the remaining elements are
analyzed by the generic loop, and a locally pushed scope is popped at the
end. -/
def analyzeListInFnF : Nat → InterpState → List Value → List Scope →
    List (List String) → Nat →
    InterpState × List Scope × List (List String) × Except Err Value
  | 0, σ, _, scopes, captures, _ => (σ, scopes, captures, .error .outOfFuel)
  | fuel + 1, σ, elems, scopes, captures, level =>
    let scopesLen := scopes.length
    let finish : InterpState → List Scope → List (List String) →
        List Value → Nat →
        InterpState × List Scope × List (List String) × Except Err Value :=
      fun σ scopes captures analyzedPrefix skipCount =>
        match analyzeBodyF fuel σ (elems.drop skipCount) scopes captures level with
        | (σ', scopes', captures', .ok analyzedRest) =>
          let scopes'' := if scopesLen ≠ scopes'.length then scopes'.dropLast else scopes'
          (σ', scopes'', captures', .ok (.list (analyzedPrefix ++ analyzedRest)))
        | (σ', scopes', captures', .error e) => (σ', scopes', captures', .error e)
    match elems with
    | .symbol "let*" none :: .vector bindings :: _ =>
      if bindings.length % 2 ≠ 0 then
        (σ, scopes, captures, .error (.list (.failure "could not analyze `let*`")))
      else
        (match letAnalyzerScope bindings with
          | .error e => (σ, scopes, captures, .error e)
          | .ok scope =>
            let scopes := scopes ++ [scope]
            match analyzeLetBindingsF fuel σ bindings scopes captures level with
            | (σ', scopes', captures', .ok analyzedBindings) =>
              finish σ' scopes' captures'
                [.symbol "let*" none, .vector analyzedBindings] 2
            | (σ', scopes', captures', .error e) => (σ', scopes', captures', .error e))
    | .symbol "loop*" none :: .vector bindings :: _ =>
      if bindings.length % 2 ≠ 0 then
        (σ, scopes, captures, .error (.list (.failure "could not analyze `loop*`")))
      else
        (match loopAnalyzerScope bindings with
          | .error e => (σ, scopes, captures, .error e)
          | .ok scope =>
            -- `loop*` pushes its scope only after analyzing the binding values
            match analyzeLetBindingsF fuel σ bindings scopes captures level with
            | (σ', scopes', captures', .ok analyzedBindings) =>
              let scopes'' := scopes' ++ [scope]
              finish σ' scopes'' captures'
                [.symbol "loop*" none, .vector analyzedBindings] 2
            | (σ', scopes', captures', .error e) => (σ', scopes', captures', .error e))
    | .symbol "fn*" none :: .vector bindings :: rest =>
      let currentFnLevel := captures.length
      let captures := captures ++ [[]]
      (match analyzeSymbolsInFnF fuel σ rest bindings scopes captures with
        | (σ', scopes', captures', .ok analyzedFn) =>
          let capturesAtThisLevel := (captures'.getLast?).getD []
          let captures'' := captures'.dropLast
          if capturesAtThisLevel.isEmpty then (σ', scopes', captures'', .ok analyzedFn)
          else
            (match analyzedFn with
              | .fn body arity lvl variadic =>
                let captures''' := hoistCaptures currentFnLevel captures'' capturesAtThisLevel
                (σ', scopes', captures''',
                 .ok (.fnWithCaptures body arity lvl variadic
                   (capturesAtThisLevel.map (fun c => (c, none)))))
              | _ => (σ', scopes', captures'', .ok analyzedFn))
        | (σ', scopes', captures', .error e) => (σ', scopes', captures', .error e))
    | .symbol "catch*" none :: .symbol s none :: rest =>
      let currentFnLevel := captures.length
      let captures := captures ++ [[]]
      (match analyzeSymbolsInFnF fuel σ rest [.symbol s none] scopes captures with
        | (σ', scopes', captures', .ok analyzedFn) =>
          let capturesAtThisLevel := (captures'.getLast?).getD []
          let captures'' := captures'.dropLast
          if capturesAtThisLevel.isEmpty then (σ', scopes', captures'', .ok analyzedFn)
          else
            (match analyzedFn with
              | .fn body arity lvl variadic =>
                let captures''' := hoistCaptures currentFnLevel captures'' capturesAtThisLevel
                (σ', scopes', captures''',
                 .ok (.fnWithCaptures body arity lvl variadic
                   (capturesAtThisLevel.map (fun c => (c, none)))))
              | _ => (σ', scopes', captures'', .ok analyzedFn))
        | (σ', scopes', captures', .error e) => (σ', scopes', captures', .error e))
    | .symbol "quote" none :: .symbol s none :: _ =>
      finish σ (scopes ++ [[(s, Value.symbol s none)]]) captures [] 0
    | .symbol "let*" none :: _ =>
      finish σ scopes captures [.symbol "let*" none] 1
    | .symbol "loop*" none :: _ =>
      finish σ scopes captures [.symbol "loop*" none] 1
    | _ => finish σ scopes captures [] 0
  termination_by structural f _ _ _ _ _ => f

end

/-! ## The reader (`reader.rs`)

The `combine`-based parser is embedded as recursive descent over
`List Char` with `combine`'s committed-choice semantics: every parser
reports, on failure, whether it consumed input; `choice` tries the next
alternative only on a failure that consumed nothing, and `many` stops at
such a failure while propagating a consuming one.  `range` is atomic (fails
without consuming on a partial match) and the character-class parsers
(`skip_many1` over `digit`/`space`/identifier characters) consume the
maximal non-empty run.  The mutual recursion `read_forms` ↔ `form` is
paced by fuel; every successful alternative consumes at least one
character, so `read` hands the recursion twice the input length in fuel,
which it can never exhaust. -/

inductive PRes (α : Type) where
  | ok (val : α) (rest : List Char) (consumed : Bool)
  | err (consumed : Bool)

/-- `ReaderError` (`reader.rs` lines 88–96); `read` only ever constructs
the `ParserError` variant (its message text is not modelled). -/
inductive ReaderError where
  | extraneousInput
  | parserError
  | unknown

/-- A single expected character (`char(c)`): fails without consuming. -/
def pChar (c : Char) : List Char → PRes Unit
  | x :: rest => if x = c then .ok () rest true else .err false
  | [] => .err false

/-- `recognize(skip_many1(class))`: the maximal non-empty run of
characters satisfying `p`, failing without consuming when the first
character does not. -/
def takeWhile1 (p : Char → Bool) (input : List Char) : PRes (List Char) :=
  match input with
  | x :: rest =>
    if p x then
      let run := rest.takeWhile p
      .ok (x :: run) (rest.dropWhile p) true
    else .err false
  | [] => .err false

/-- `range(s)`: atomic literal match, fails without consuming. -/
def pRange (s : String) (input : List Char) : PRes Unit :=
  if s.toList.isPrefixOf input then .ok () (input.drop s.length) true
  else .err false

/-- `space() | char(',')` — the whitespace class. -/
def isWsChar (c : Char) : Bool := c.isWhitespace || c = ','

/-- `alpha_num() | one_of("*+!-_'?<>=")` — the identifier class. -/
def isIdentChar (c : Char) : Bool :=
  c.isAlphanum || "*+!-_'?<>=".toList.contains c

/-- `u64::MAX`, the `from_str` bound of the number parser. -/
def u64Max : Nat := 2 ^ 64 - 1

def digitsToNat (ds : List Char) : Nat :=
  ds.foldl (fun acc c => 10 * acc + (c.toNat - Char.toNat '0')) 0

/-- The number parser: `from_str(recognize(skip_many1(digit())))` mapped
into `Form::Number`; `from_str` fails (after consuming) past `u64::MAX`. -/
def numberP (input : List Char) : PRes Form :=
  match takeWhile1 Char.isDigit input with
  | .ok ds rest _ =>
    let n := digitsToNat ds
    if n ≤ u64Max then .ok (.number n) rest true else .err true
  | .err c => .err c

def whitespaceP (input : List Char) : PRes Form :=
  match takeWhile1 isWsChar input with
  | .ok ws rest _ => .ok (.whitespace (String.mk ws)) rest true
  | .err c => .err c

/-- The string parser `(char('"'), recognize(skip_until(char('"'))),
char('"'))`: no escape handling; an unterminated string is a consuming
failure. -/
def stringP (input : List Char) : PRes Form :=
  match input with
  | '"' :: rest =>
    let content := rest.takeWhile (fun c => c ≠ '"')
    match rest.dropWhile (fun c => c ≠ '"') with
    | '"' :: rest' => .ok (.string (String.mk content)) rest' true
    | _ => .err true
  | _ => .err false

/-- `identifier_with_namespace` (`reader.rs` lines 121–127): an identifier
run, optionally followed by `/` and a second run which then becomes the
name with the first run as its namespace. -/
def identifierWithNamespace (input : List Char) : PRes (String × Option String) :=
  match takeWhile1 isIdentChar input with
  | .ok first rest _ =>
    (match rest with
      | '/' :: rest' =>
        (match takeWhile1 isIdentChar rest' with
          | .ok second rest'' _ => .ok (String.mk second, some (String.mk first)) rest'' true
          | .err _ => .err true)
      | _ => .ok (String.mk first, none) rest true)
  | .err c => .err c

def symbolP (input : List Char) : PRes Form :=
  match identifierWithNamespace input with
  | .ok (id, ns) rest c => .ok (.symbol id ns) rest c
  | .err c => .err c

def keywordP (input : List Char) : PRes Form :=
  match input with
  | ':' :: rest =>
    (match identifierWithNamespace rest with
      | .ok (id, ns) rest' _ => .ok (.keyword id ns) rest' true
      | .err _ => .err true)
  | _ => .err false

/-- The comment parser: `;` then everything up to (and optionally
consuming) a newline or end of input. -/
def commentP (input : List Char) : PRes Form :=
  match input with
  | ';' :: rest =>
    let content := rest.takeWhile (fun c => c ≠ '\n')
    (match rest.dropWhile (fun c => c ≠ '\n') with
      | '\n' :: rest' => .ok (.comment (String.mk content)) rest' true
      | rest' => .ok (.comment (String.mk content)) rest' true)
  | _ => .err false

mutual

/-- `read_forms_inner`'s `many(forms)` loop: collect while the alternative
succeeds, stop on a non-consuming failure, propagate a consuming one. -/
def readFormsF : Nat → List Char → PRes (List Form)
  | 0, _ => .err true
  | fuel + 1, input =>
    match formF fuel input with
    | .ok form rest _ =>
      (match readFormsF fuel rest with
        | .ok forms rest' c => .ok (form :: forms) rest' c
        | .err true => .err true
        | .err false => .ok [form] rest true)
    | .err true => .err true
    | .err false => .ok [] input false
  termination_by structural f _ => f

/-- The `choice` over the form alternatives, in source order: whitespace,
number, `nil`, `true`, `false`, string, keyword, symbol, comment, list,
vector, map, set. -/
def formF : Nat → List Char → PRes Form
  | 0, _ => .err true
  | fuel + 1, input =>
    match whitespaceP input with
    | .ok f rest c => .ok f rest c
    | .err true => .err true
    | .err false =>
    match numberP input with
    | .ok f rest c => .ok f rest c
    | .err true => .err true
    | .err false =>
    match pRange "nil" input with
    | .ok () rest c => .ok .nil rest c
    | .err true => .err true
    | .err false =>
    match pRange "true" input with
    | .ok () rest c => .ok (.bool true) rest c
    | .err true => .err true
    | .err false =>
    match pRange "false" input with
    | .ok () rest c => .ok (.bool false) rest c
    | .err true => .err true
    | .err false =>
    match stringP input with
    | .ok f rest c => .ok f rest c
    | .err true => .err true
    | .err false =>
    match keywordP input with
    | .ok f rest c => .ok f rest c
    | .err true => .err true
    | .err false =>
    match symbolP input with
    | .ok f rest c => .ok f rest c
    | .err true => .err true
    | .err false =>
    match commentP input with
    | .ok f rest c => .ok f rest c
    | .err true => .err true
    | .err false =>
    match betweenF fuel '(' ')' input with
    | .ok forms rest c => .ok (.list forms) rest c
    | .err true => .err true
    | .err false =>
    match betweenF fuel '[' ']' input with
    | .ok forms rest c => .ok (.vector forms) rest c
    | .err true => .err true
    | .err false =>
    match betweenF fuel '{' '}' input with
    | .ok forms rest c => .ok (.map forms) rest c
    | .err true => .err true
    | .err false =>
    match input with
    | '#' :: rest1 =>
      (match betweenF fuel '{' '}' rest1 with
        | .ok forms rest c => .ok (.set forms) rest c
        | .err _ => .err true)
    | _ => .err false
  termination_by structural f _ => f

/-- `between(char(open), char(close), read_forms())`. -/
def betweenF : Nat → Char → Char → List Char → PRes (List Form)
  | 0, _, _, _ => .err true
  | fuel + 1, openC, closeC, input =>
    match pChar openC input with
    | .ok () rest _ =>
      (match readFormsF fuel rest with
        | .ok forms rest' _ =>
          (match pChar closeC rest' with
            | .ok () rest'' _ => .ok forms rest'' true
            | .err _ => .err true)
        | .err _ => .err true)
    | .err c => .err c
  termination_by structural f _ _ _ => f

end

/-- `read` (`reader.rs` lines 159–166): parse `(read_forms(), eof())`;
either parser failing produces `ReaderError::ParserError`. -/
def read (input : String) : Except ReaderError (List Form) :=
  let cs := input.toList
  match readFormsF (2 * cs.length + 2) cs with
  | .ok forms rest _ => if rest.isEmpty then .ok forms else .error .parserError
  | .err _ => .error .parserError

/-- Claim C4 (amended): on every form, the quasiquote expansion of the
source (`eval_quasiquote`) agrees with the spec §4.5 algorithm amended as
the code forces: the emitted operator symbols are namespace-qualified
`core/concat`, `core/cons` and `core/vec` rather than the bare names, a
list element whose head is `splice-unquote` but which carries no argument
contributes nothing to the fold, and a list `(unquote)` with no second
element is a quasiquote error. -/
theorem C4_quasiquote_follows_amended_spec :
    ∀ v : Value, eval_quasiquote v = quasiquoteSpecAmended v := by
  apply eval_quasiquote.induct
    (fun l => eval_quasiquote_list_inner l = quasiquoteSpecAmendedFold l)
    (fun v => eval_quasiquote v = quasiquoteSpecAmended v)
    (fun l => eval_quasiquote_vector l =
      (do
        let inner ← quasiquoteSpecAmendedFold l
        Except.ok (.list [.symbol "vec" (some "core"), inner])))
    (fun l => eval_quasiquote_list l = quasiquoteSpecAmended (.list l))
  case case1 =>
    simp [eval_quasiquote_list_inner, quasiquoteSpecAmendedFold]
  case case2 =>
    intro inner rest h1 h2
    rcases inner with _ | ⟨hd, tl⟩
    · have hz : quasiquoteSpecAmended (Value.list []) = Except.ok (Value.list []) := by
        simp [quasiquoteSpecAmended, quasiquoteSpecAmendedFold]
      simp [eval_quasiquote_list_inner, quasiquoteSpecAmendedFold, h1, hz]
      cases hacc : quasiquoteSpecAmendedFold rest <;> rfl
    · cases hd
      case symbol id ns =>
        rcases ns with _ | s
        · by_cases hid : id = "splice-unquote"
          · subst hid
            simp [eval_quasiquote_list_inner, quasiquoteSpecAmendedFold, h1]
          · simp [eval_quasiquote_list_inner, quasiquoteSpecAmendedFold, h1, h2, hid]
        · simp [eval_quasiquote_list_inner, quasiquoteSpecAmendedFold, h1, h2]
      all_goals simp [eval_quasiquote_list_inner, quasiquoteSpecAmendedFold, h1, h2]
  case case3 =>
    intro form rest hnl h1 h2
    cases form
    case list inner => exact absurd rfl (hnl inner)
    all_goals
      simp [eval_quasiquote_list_inner, quasiquoteSpecAmendedFold, h1, h2]
  case case4 =>
    intro elems h4
    simpa [eval_quasiquote] using h4
  case case5 =>
    intro elems h3
    simpa [eval_quasiquote, quasiquoteSpecAmended] using h3
  case case6 =>
    intro m
    simp [eval_quasiquote, quasiquoteSpecAmended]
  case case7 =>
    intro id ns
    simp [eval_quasiquote, quasiquoteSpecAmended]
  case case8 =>
    intro v hnl hnv hnm hns
    cases v
    case list elems => exact absurd rfl (hnl elems)
    case vector elems => exact absurd rfl (hnv elems)
    case map m => exact absurd rfl (hnm m)
    case symbol id ns => exact absurd rfl (hns id ns)
    all_goals simp [eval_quasiquote, quasiquoteSpecAmended]
  case case9 =>
    intro elems h1
    simp [eval_quasiquote_vector, h1]
  case case10 =>
    simp [eval_quasiquote_list, quasiquoteSpecAmended, quasiquoteSpecAmendedFold]
  case case11 =>
    intro rest second hhead
    simp [eval_quasiquote_list, quasiquoteSpecAmended, hhead]
  case case12 =>
    intro rest hhead
    simp [eval_quasiquote_list, quasiquoteSpecAmended, hhead]
  case case13 =>
    intro first rest hnu h1
    have hl : eval_quasiquote_list (first :: rest) =
        eval_quasiquote_list_inner (first :: rest) := by
      rw [eval_quasiquote_list.eq_def]
      split
      all_goals simp_all
    have hr : quasiquoteSpecAmended (.list (first :: rest)) =
        quasiquoteSpecAmendedFold (first :: rest) := by
      rw [quasiquoteSpecAmended.eq_def]
      split
      all_goals simp_all
    rw [hl, hr]
    exact h1

/-- Claim C4 (counterexample): the expansion does not follow the spec's
algorithm as written.  On the list `(a)` the code emits the
namespace-qualified operator `core/cons` where the spec's fold produces the
bare symbol `cons`; and a list element `(splice-unquote)` carrying no
argument is silently dropped by the code (the expansion of
`((splice-unquote))` is the empty list), where the spec's fold treats it as
an ordinary element and produces a `cons` form. -/
theorem C4_quasiquote_spec_counterexample :
    eval_quasiquote (.list [.symbol "a" none])
        ≠ .ok (quasiquoteSpec (.list [.symbol "a" none]))
      ∧ eval_quasiquote (.list [.list [.symbol "splice-unquote" none]])
        = .ok (.list [])
      ∧ quasiquoteSpec (.list [.list [.symbol "splice-unquote" none]])
        ≠ .list [] := by
  refine ⟨?_, ?_, ?_⟩
  · simp [eval_quasiquote, eval_quasiquote_list, eval_quasiquote_list_inner,
      quasiquoteSpec, quasiquoteSpecFold, Bind.bind, Except.bind]
  · simp [eval_quasiquote, eval_quasiquote_list, eval_quasiquote_list_inner,
      Bind.bind, Except.bind]
  · simp [quasiquoteSpec, quasiquoteSpecFold]

/-- Helper for C10: the fold errors whenever `0` occurs among the divisors. -/
theorem divideFold_zero_mem (ms : List Int) (a : Int) (h0 : (0 : Int) ∈ ms) :
    divideFold a (ms.map Value.number) = .error (.primitive (.failure "overflow detected")) := by
  induction ms generalizing a with
  | nil => cases h0
  | cons m tl ih =>
    by_cases hm : m = 0
    · subst hm
      simp [divideFold, checked_div_euclid]
    · have h0' : (0 : Int) ∈ tl := by
        rcases List.mem_cons.mp h0 with h | h
        · exact absurd h.symm hm
        · exact h
      simp only [List.map_cons, divideFold]
      cases hc : checked_div_euclid a m with
      | some r => simpa [hc] using ih r h0'
      | none => simp [hc]

/-- Helper for C10: with all divisors positive the fold is the plain left
fold of Euclidean division. -/
theorem divideFold_pos (ms : List Int) (a : Int) (hpos : ∀ m ∈ ms, 0 < m) :
    divideFold a (ms.map Value.number) = .ok (ms.foldl Int.ediv a) := by
  induction ms generalizing a with
  | nil => simp [divideFold]
  | cons m tl ih =>
    have hm : 0 < m := hpos m (List.mem_cons_self m tl)
    have hc : checked_div_euclid a m = some (Int.ediv a m) := by
      have h1 : ¬ m = 0 := by omega
      have h2 : ¬ m = -1 := by omega
      simp [checked_div_euclid, h1, h2]
    simp only [List.map_cons, divideFold, hc, List.foldl_cons]
    exact ih (Int.ediv a m) (fun x hx => hpos x (List.mem_cons_of_mem _ hx))

/-- Claim C10: the division primitive is total over integer arguments and
its error branch is taken exactly on undefined arithmetic.  With one
numeric argument `n` it returns the Euclidean quotient of `1 / n` (so
`(/ 2)` is `0`) and errors exactly on `n = 0`; with more arguments it folds
Euclidean division left to right (shown for all-positive divisors, where no
step can be undefined); whenever `0` occurs among the divisors it returns a
primitive evaluation error, and the single overflowing division
`i64::MIN / -1` is a primitive evaluation error as well. -/
theorem C10_divide_total_and_errors :
    divide [.number 2] = .ok (.number 0)
      ∧ (∀ n : Int, n ≠ 0 → divide [.number n] = .ok (.number (Int.ediv 1 n)))
      ∧ divide [.number 0] = .error (.primitive (.failure "overflow detected"))
      ∧ (∀ a : Int, ∀ ms : List Int, (0 : Int) ∈ ms →
          divide (.number a :: ms.map Value.number)
            = .error (.primitive (.failure "overflow detected")))
      ∧ (∀ a m : Int, ∀ ms : List Int, 0 < m → (∀ x ∈ ms, 0 < x) →
          divide (.number a :: .number m :: ms.map Value.number)
            = .ok (.number ((m :: ms).foldl Int.ediv a)))
      ∧ divide [.number i64Min, .number (-1)]
          = .error (.primitive (.failure "overflow detected")) := by
  refine ⟨?_, ?_, ?_, ?_, ?_, ?_⟩
  · simp [divide, checked_div_euclid]
    decide
  · intro n hn
    have h2 : ¬ ((1 : Int) = i64Min ∧ n = -1) := by
      intro h
      have := h.1
      simp [i64Min] at this
    simp [divide, checked_div_euclid, hn, h2]
  · simp [divide, checked_div_euclid]
  · intro a ms h0
    rcases ms with _ | ⟨m, tl⟩
    · cases h0
    · have := divideFold_zero_mem (m :: tl) a h0
      simp only [List.map_cons] at this
      simp [divide, this, Except.map]
  · intro a m ms hm hms
    have := divideFold_pos (m :: ms) a (by
      intro x hx
      rcases List.mem_cons.mp hx with h | h
      · omega
      · exact hms x h)
    simp only [List.map_cons] at this
    simp [divide, this, Except.map]
  · simp [divide, divideFold, checked_div_euclid, Except.map]

/-- Witness for C10: the hypotheses of the claim theorem discharged at
concrete inputs. -/
theorem C10_divide_witness :
    ((3 : Int) ≠ 0 ∧ divide [.number 3] = .ok (.number (Int.ediv 1 3)))
      ∧ ((0 : Int) ∈ [(5 : Int), 0]
        ∧ divide (.number 10 :: ([(5 : Int), 0]).map Value.number)
            = .error (.primitive (.failure "overflow detected")))
      ∧ divide (.number 7 :: .number 2 :: ([] : List Int).map Value.number)
          = .ok (.number (([2] : List Int).foldl Int.ediv 7)) :=
  ⟨⟨by decide, C10_divide_total_and_errors.2.1 3 (by decide)⟩,
   ⟨by decide, C10_divide_total_and_errors.2.2.2.1 10 [5, 0] (by decide)⟩,
   C10_divide_total_and_errors.2.2.2.2.1 7 2 [] (by decide) (by intro x hx; cases hx)⟩

/-! ## Claim C1 -/

/-- Claim C1 (code bug): the scope stack is NOT balanced on every exit
path.  Evaluating `(loop* [n x] n)` with `x` unbound propagates the
resolution error through the `?` in `eval_loop`'s binding loop without the
`leave_scope` every sibling path performs, so the scope entered for the
`loop*` bindings is still on the stack when `evaluate` returns: the final
scope-stack depth is one greater than the initial depth. -/
theorem C1_loop_scope_leak_on_binding_error :
    evaluateF 10 initialState
        (.list [.symbol "loop*" none,
                .vector [.symbol "n" none, .symbol "x" none],
                .symbol "n" none])
      = (initialState.enter_scope,
         .error (.symbol (.missingVar "x" DEFAULT_NAMESPACE)))
      ∧ (evaluateF 10 initialState
          (.list [.symbol "loop*" none,
                  .vector [.symbol "n" none, .symbol "x" none],
                  .symbol "n" none])).1.scopes.length
        = initialState.scopes.length + 1 :=
  ⟨rfl, rfl⟩

/-! ## Claim C6 -/

set_option maxHeartbeats 4000000

/-- Claim C6 (counterexample): evaluating `(recur 1)` at top level — an
ordinary context outside any `loop*`/`fn*` tail — is NOT an error: the
evaluator returns the `Recur` sentinel as a successful result. -/
theorem C6_recur_toplevel_counterexample :
    evaluateF 10 initialState (.list [.symbol "recur" none, .number 1])
      = (initialState, .ok (.recur [.number 1])) :=
  rfl

/-- Claim C6 (amended): a `(recur e)` form anywhere outside a `loop*`
tail is not detected as an error; `eval_recur` evaluates the arguments and
returns the `Recur` sentinel as a successful value to the surrounding
context (only `eval_loop` consumes it, and `evaluate` on an escaped `Recur`
*value* is an `unreachable!` panic). -/
theorem C6_recur_returns_sentinel (g : Nat) (σ σ' : InterpState) (e v : Value)
    (hmac : getMacroExpansionF (g + 1 + 1 + 1) σ (.symbol "recur" none)
      [.symbol "recur" none, e] = none)
    (he : evaluateF (g + 1) σ e = (σ', .ok v)) :
    evaluateF (g + 1 + 1 + 1 + 1 + 1) σ (.list [.symbol "recur" none, e])
      = (σ', .ok (.recur [v])) := by
  rw [evaluateF, evalListF, hmac]
  rw [evalRecurF, evalSeqF, he]
  simp [evalSeqF]

/-- Witness for C6: the amended theorem applied at `(recur true)` from the
initial state. -/
theorem C6_recur_returns_sentinel_witness :
    evaluateF 6 initialState (.list [.symbol "recur" none, .bool true])
      = (initialState, .ok (.recur [.bool true])) :=
  C6_recur_returns_sentinel 1 initialState initialState (.bool true) (.bool true)
    rfl rfl

/-! ## Claim C5 -/

/-- Claim C5: in `(if p c a?)` the predicate is evaluated first; `nil` and
`Bool(false)` — and only those values — select the alternate, every other
value selects the consequent; a falsey predicate with no alternate form
yields `Nil`; and only the selected branch is evaluated (the result is the
evaluation of that branch alone from the post-predicate state). -/
theorem C5_if_predicate_semantics (g : Nat) (σ σ' : InterpState)
    (p c : Value) (altRest : List Value) (v : Value)
    (hmac : getMacroExpansionF (g + 1) σ (.symbol "if" none)
      (.symbol "if" none :: p :: c :: altRest) = none)
    (hp : evaluateF g σ p = (σ', .ok v)) :
    (v = .bool true →
      evaluateF (g + 1 + 1 + 1) σ (.list (.symbol "if" none :: p :: c :: altRest))
        = evaluateF g σ' c)
    ∧ ((∀ b, v ≠ .bool b) → v ≠ .nil →
      evaluateF (g + 1 + 1 + 1) σ (.list (.symbol "if" none :: p :: c :: altRest))
        = evaluateF g σ' c)
    ∧ ((v = .bool false ∨ v = .nil) → ∀ a, altRest.head? = some a →
      evaluateF (g + 1 + 1 + 1) σ (.list (.symbol "if" none :: p :: c :: altRest))
        = evaluateF g σ' a)
    ∧ ((v = .bool false ∨ v = .nil) → altRest = [] →
      evaluateF (g + 1 + 1 + 1) σ (.list (.symbol "if" none :: p :: c :: altRest))
        = (σ', .ok .nil)) := by
  refine ⟨?_, ?_, ?_, ?_⟩
  · intro hv
    subst hv
    rw [evaluateF, evalListF, hmac]
    simp only [String.reduceEq, reduceIte]
    rw [evalIfF, hp]
    rfl
  · intro hnb hnn
    rw [evaluateF, evalListF, hmac]
    simp only [String.reduceEq, reduceIte]
    rw [evalIfF, hp]
    cases v with
    | bool b => exact absurd rfl (hnb b)
    | nil => exact absurd rfl hnn
    | _ => simp
  · intro hv a ha
    rw [evaluateF, evalListF, hmac]
    simp only [String.reduceEq, reduceIte]
    rw [evalIfF, hp]
    rcases hv with hv | hv <;> subst hv <;> simp [ha]
  · intro hv ha
    subst ha
    rw [evaluateF, evalListF, hmac]
    simp only [String.reduceEq, reduceIte]
    rw [evalIfF, hp]
    rcases hv with hv | hv <;> subst hv <;> simp

/-- Witness for C5: `(if nil c a)` with a `nil` predicate takes the
alternate branch. -/
theorem C5_if_predicate_semantics_witness :
    evaluateF 4 initialState
        (.list [.symbol "if" none, .nil, .number 1, .number 2])
      = evaluateF 1 initialState (.number 2) :=
  (C5_if_predicate_semantics 1 initialState initialState .nil (.number 1)
    [.number 2] .nil rfl rfl).2.2.1 (Or.inr rfl) (.number 2) rfl

/-! ## Claim C2 -/

theorem assocGet_assocPut_self {α : Type} (l : List (String × α)) (k : String) (v : α) :
    assocGet (assocPut l k v) k = some v := by
  induction l with
  | nil => simp [assocPut, assocGet]
  | cons hd tl ih =>
    by_cases h : hd.1 = k
    · simp [assocPut, assocGet, h]
    · simp [assocPut, assocGet, h, ih]

theorem assocGet_assocRemove_self {α : Type} (l : List (String × α)) (k : String)
    (h : (l.map Prod.fst).Nodup) : assocGet (assocRemove l k) k = none := by
  induction l with
  | nil => simp [assocRemove, assocGet]
  | cons hd tl ih =>
    simp only [List.map_cons, List.nodup_cons] at h
    by_cases hk : hd.1 = k
    · have : assocGet tl k = none := by
        subst hk
        clear ih
        induction tl with
        | nil => simp [assocGet]
        | cons hd2 tl2 ih2 =>
          simp only [List.mem_map] at h
          have h21 : ¬ hd2.1 = hd.1 := by
            intro hc
            exact h.1 ⟨hd2, List.mem_cons_self hd2 tl2, hc⟩
          refine Eq.trans ?_ (ih2 ⟨?_, ?_⟩)
          · simp [assocGet, h21]
          · intro hc
            rcases List.mem_map.mp hc with ⟨x, hx, hx1⟩
            exact h.1 ⟨x, List.mem_cons_of_mem _ hx, hx1⟩
          · exact (List.nodup_cons.mp h.2).2
      simp [assocRemove, hk, this]
    · simp [assocRemove, assocGet, hk, ih h.2]

/-- Claim C2: the `(def! sym expr)` protocol.  With a pre-existing var the
var is reused: a successful `expr` updates its cell and the var is
returned, a failing `expr` leaves the registry exactly as the failing
evaluation left it (the error path touches nothing).  With no prior var an
unbound var is interned *before* `expr` is evaluated (so `expr` sees it); a
successful `expr` updates the fresh cell and returns the var, and a failing
`expr` uninterns the freshly created var again.  Finally, after an
unintern the identifier no longer resolves in the current namespace. -/
theorem C2_def_protocol (g : Nat) (σ : InterpState) (id : String) (expr : Value)
    (hmac : getMacroExpansionF (g + 1) σ (.symbol "def!" none)
      [.symbol "def!" none, .symbol id none, expr] = none) :
    (∀ cell ns ident,
      σ.resolve_var_in_current_namespace id = .ok (.var cell ns ident) →
      (∀ σ₂ value, evaluateF g σ expr = (σ₂, .ok value) →
        evaluateF (g + 1 + 1 + 1) σ (.list [.symbol "def!" none, .symbol id none, expr])
          = (σ₂.updateCell cell value, .ok (.var cell ns ident)))
      ∧ (∀ σ₂ e, evaluateF g σ expr = (σ₂, .error e) →
        evaluateF (g + 1 + 1 + 1) σ (.list [.symbol "def!" none, .symbol id none, expr])
          = (σ₂, .error (.list (.failure ("could not evaluate `def!`: " ++ errString e))))))
    ∧ (∀ mid mns,
      σ.resolve_var_in_current_namespace id = .error (.symbol (.missingVar mid mns)) →
      ((σ.intern_unbound_var id).1.resolve_var_in_current_namespace id
          = .ok (σ.intern_unbound_var id).2)
      ∧ (∀ σ₂ value,
          evaluateF g (σ.intern_unbound_var id).1 expr = (σ₂, .ok value) →
          evaluateF (g + 1 + 1 + 1) σ (.list [.symbol "def!" none, .symbol id none, expr])
            = (σ₂.updateCell σ.varHeap.length value,
               .ok (.var σ.varHeap.length σ.currentNamespace id)))
      ∧ (∀ σ₂ e,
          evaluateF g (σ.intern_unbound_var id).1 expr = (σ₂, .error e) →
          evaluateF (g + 1 + 1 + 1) σ (.list [.symbol "def!" none, .symbol id none, expr])
            = (σ₂.unintern_var id,
               .error (.list (.failure ("could not evaluate `def!`: " ++ errString e))))))
    ∧ (∀ (σ' : InterpState) (id' : String) (nsMap : List (String × Nat)),
        assocGet σ'.namespaces σ'.currentNamespace = some nsMap →
        (nsMap.map Prod.fst).Nodup →
        (σ'.unintern_var id').resolve_var_in_current_namespace id'
          = .error (.symbol (.missingVar id' σ'.currentNamespace))) := by
  refine ⟨?_, ?_, ?_⟩
  · intro cell ns ident hex
    constructor
    · intro σ₂ value hev
      rw [evaluateF, evalListF, hmac]
      simp only [String.reduceEq, reduceIte]
      rw [evalDefF]
      simp only [List.head?_cons, hex, hev]
    · intro σ₂ e hef
      rw [evaluateF, evalListF, hmac]
      simp only [String.reduceEq, reduceIte]
      rw [evalDefF]
      simp only [List.head?_cons, hex, hef]
      simp
  · intro mid mns hmiss
    refine ⟨?_, ?_, ?_⟩
    · simp only [InterpState.intern_unbound_var, InterpState.allocCell,
        InterpState.resolve_var_in_current_namespace, InterpState.resolve_var_in_namespace,
        assocGet_assocPut_self]
    · intro σ₂ value hev
      rw [evaluateF, evalListF, hmac]
      simp only [String.reduceEq, reduceIte]
      rw [evalDefF]
      simp only [List.head?_cons, hmiss, InterpState.intern_unbound_var,
        InterpState.allocCell] at hev ⊢
      simp only [hev]
    · intro σ₂ e hef
      rw [evaluateF, evalListF, hmac]
      simp only [String.reduceEq, reduceIte]
      rw [evalDefF]
      simp only [List.head?_cons, hmiss, InterpState.intern_unbound_var,
        InterpState.allocCell] at hef ⊢
      simp only [hef]
      simp
  · intro σ' id' nsMap hns hnodup
    simp only [InterpState.unintern_var, hns,
      InterpState.resolve_var_in_current_namespace, InterpState.resolve_var_in_namespace,
      assocGet_assocPut_self, assocGet_assocRemove_self nsMap id' hnodup]

/-- Witness for C2: defining a fresh `x` as `7` from the initial state
interns the var, updates its cell on success, and returns the var. -/
theorem C2_def_protocol_witness :
    evaluateF 4 initialState
        (.list [.symbol "def!" none, .symbol "x" none, .number 7])
      = ((initialState.intern_unbound_var "x").1.updateCell
           initialState.varHeap.length (.number 7),
         .ok (.var initialState.varHeap.length initialState.currentNamespace "x")) :=
  ((C2_def_protocol 1 initialState "x" (.number 7) rfl).2.1 "x" DEFAULT_NAMESPACE
    rfl).2.1 (initialState.intern_unbound_var "x").1 (.number 7) rfl

/-! ## Claim C9 -/

/-- Claim C9: `macroexpand` is the identity on any non-macro form.
Evaluating `(macroexpand (quote v))` returns `v` unchanged — and leaves
the state unchanged — whenever `v` is not a list, or is a list whose head
does not resolve to a macro; hence a second application of `macroexpand`
to the result returns it unchanged as well (the conclusion applies to the
result verbatim, under the same hypotheses). -/
theorem C9_macroexpand_identity_on_plain_form (h : Nat) (σ : InterpState) (v : Value)
    (hm1 : getMacroExpansionF (h + 1 + 1 + 1 + 1) σ (.symbol "macroexpand" none)
      [.symbol "macroexpand" none, .list [.symbol "quote" none, v]] = none)
    (hm2 : getMacroExpansionF (h + 1) σ (.symbol "quote" none)
      [.symbol "quote" none, v] = none) :
    ((∀ elems, v ≠ .list elems) →
      evaluateF (h + 1 + 1 + 1 + 1 + 1 + 1) σ
          (.list [.symbol "macroexpand" none, .list [.symbol "quote" none, v]])
        = (σ, .ok v))
    ∧ (∀ elems, v = .list elems →
      (∀ hd, elems.head? = some hd → getMacroExpansionF (h + 1 + 1) σ hd elems = none) →
      evaluateF (h + 1 + 1 + 1 + 1 + 1 + 1) σ
          (.list [.symbol "macroexpand" none, .list [.symbol "quote" none, v]])
        = (σ, .ok v)) := by
  have hq : evaluateF (h + 1 + 1 + 1) σ (.list [.symbol "quote" none, v])
      = (σ, .ok v) := by
    rw [evaluateF, evalListF, hm2]
    simp only [String.reduceEq, reduceIte]
    rw [evalQuoteF]
    simp
  constructor
  · intro hnl
    rw [evaluateF, evalListF, hm1]
    simp only [String.reduceEq, reduceIte]
    rw [evalMacroexpandF]
    simp only [List.length_cons, List.length_nil, List.head?_cons, hq]
    cases v with
    | list elems => exact absurd rfl (hnl elems)
    | _ => simp
  · intro elems hv hm3
    subst hv
    rw [evaluateF, evalListF, hm1]
    simp only [String.reduceEq, reduceIte]
    rw [evalMacroexpandF]
    simp only [List.length_cons, List.length_nil, List.head?_cons, hq]
    rw [expandMacroIfPresentF]
    cases helems : elems.head? with
    | none =>
      have : elems = [] := List.head?_eq_none_iff.mp helems
      subst this
      simp
    | some hd =>
      have hm3' := hm3 hd helems
      rw [show h + 1 + 1 = h + 2 from rfl] at hm3'
      simp [hm3']

/-- Witness for C9: `(macroexpand (quote (1 2)))` from the initial state
returns the list `(1 2)` unchanged (its head, a number, is no macro). -/
theorem C9_macroexpand_identity_witness :
    evaluateF 6 initialState
        (.list [.symbol "macroexpand" none,
                .list [.symbol "quote" none, .list [.number 1, .number 2]]])
      = (initialState, .ok (.list [.number 1, .number 2])) :=
  (C9_macroexpand_identity_on_plain_form 0 initialState (.list [.number 1, .number 2])
    rfl rfl).2 [.number 1, .number 2] rfl (fun hd hhd => by
      simp only [List.head?_cons, Option.some.injEq] at hhd
      subst hhd
      rfl)

/-! ## Claim C3 -/

/-- Claim C3: the `try*`/`catch*` protocol.  With a trailing
`(catch* ex body…)` clause (analyzed as a unary lambda over `ex`), the
non-catch forms are evaluated in order by `eval_do_inner`, which stops at
the first thrown exception; a non-thrown result is returned as is; a
thrown exception has its payload — the exception with the `thrown` flag
reset to `false` — bound in a fresh scope under the catch parameter, the
catch body is run, and the scope popped again.  A `try*` whose last form is
no catch clause — in particular any list not headed by the symbol
`catch*`, such as the body of `(try* (throw 1))` — evaluates all its forms
and returns a thrown exception itself as the (successful) result to the
caller. -/
theorem C3_try_catch_protocol (g : Nat) (σ σ₁ : InterpState)
    (es catchBody : List Value) (ex : String)
    (body : List Value) (arity lvl : Nat) (variadic : Bool)
    (s₁ : List Scope) (c₁ : List (List String))
    (hmac : getMacroExpansionF (g + 1) σ (.symbol "try*" none)
      (.symbol "try*" none
        :: (es ++ [.list (.symbol "catch*" none :: .symbol ex none :: catchBody)])) = none)
    (han : analyzeSymbolsInFnF g σ catchBody [.symbol ex none] [] []
      = (σ₁, s₁, c₁, .ok (.fn body arity lvl variadic))) :
    (∀ σ₂ v, evalDoInnerF g σ₁ es = (σ₂, .ok v) → exception_is_thrown v = false →
      evaluateF (g + 1 + 1 + 1) σ
          (.list (.symbol "try*" none
            :: (es ++ [.list (.symbol "catch*" none :: .symbol ex none :: catchBody)])))
        = (σ₂, .ok v))
    ∧ (∀ σ₂ m d, evalDoInnerF g σ₁ es = (σ₂, .ok (.exception m d true)) →
      ∀ σ₄ r, evalDoInnerF g
          ((σ₂.enter_scope).insert_value_in_current_scope
            (lambda_parameter_key 0 lvl) (.exception m d false)) body = (σ₄, r) →
      evaluateF (g + 1 + 1 + 1) σ
          (.list (.symbol "try*" none
            :: (es ++ [.list (.symbol "catch*" none :: .symbol ex none :: catchBody)])))
        = (σ₄.leave_scope, r))
    ∧ (∀ (g' : Nat) (σa σb : InterpState) (x : Value) (rest : List Value) (e' : Value),
      evaluateF g' σa x = (σb, .ok e') → exception_is_thrown e' = true →
      evalDoInnerF (g' + 1) σa (x :: rest) = (σb, .ok e'))
    ∧ (∀ (σc σd : InterpState) (rest' : List Value) (lastV v' : Value),
      rest'.getLast? = some lastV →
      (∀ l, lastV = .list l → l.head? ≠ some (.symbol "catch*" none)) →
      (∀ b a l vv, lastV ≠ .fn b a l vv) →
      (∀ b a l vv cs, lastV ≠ .fnWithCaptures b a l vv cs) →
      getMacroExpansionF (g + 1) σc (.symbol "try*" none)
        (.symbol "try*" none :: rest') = none →
      evalDoInnerF g σc rest' = (σd, .ok v') →
      exception_is_thrown v' = true →
      evaluateF (g + 1 + 1 + 1) σc (.list (.symbol "try*" none :: rest'))
        = (σd, .ok v')) := by
  refine ⟨?_, ?_, ?_, ?_⟩
  · intro σ₂ v hdo hth
    rw [evaluateF, evalListF, hmac]
    simp only [String.reduceEq, reduceIte]
    rw [evalTryF]
    simp only [List.getLast?_concat, List.head?_cons, han, List.dropLast_concat,
      Option.isNone_some, Bool.false_eq_true, if_false, hdo, hth]
  · intro σ₂ m d hdo σ₄ r hbody
    rw [evaluateF, evalListF, hmac]
    simp only [String.reduceEq, reduceIte]
    rw [evalTryF]
    simp only [List.getLast?_concat, List.head?_cons, han, List.dropLast_concat,
      Option.isNone_some, Bool.false_eq_true, if_false, hdo]
    simp only [exception_is_thrown, exception_from_thrown, if_true, hbody]
  · intro g' σa σb x rest e' hx hth
    rw [evalDoInnerF, hx]
    simp [hth]
  · intro σc σd rest' lastV v' hlast hnl hnf hnfc hmac2 hdo hth
    rw [evaluateF, evalListF, hmac2]
    simp only [String.reduceEq, reduceIte]
    rw [evalTryF]
    rw [hlast]
    cases lastV with
    | list l =>
      have hne := hnl l rfl
      cases hh : l.head? with
      | none => simp [hh, hdo, hth]
      | some hd =>
        cases hd with
        | symbol s ns =>
          cases ns with
          | none =>
            have hs : s ≠ "catch*" := fun he => hne (by rw [hh, he])
            simp [hh, hs, hdo, hth]
          | some nsv => simp [hh, hdo, hth]
        | _ => simp [hh, hdo, hth]
    | fn b a l vv => exact absurd rfl (hnf b a l vv)
    | fnWithCaptures b a l vv cs => exact absurd rfl (hnfc b a l vv cs)
    | _ =>
      simp [hdo, hth]

/-- Witness for C3: `(try* (throw 1) (catch* e 7))` from the state holding
the `throw` primitive evaluates the throw, catches the thrown exception,
and returns the catch body's value `7`; and `(try* (throw 1))` — no catch
clause, the try body ending in a non-catch list — returns the thrown
exception itself as the successful result. -/
theorem C3_try_catch_protocol_witness :
    (evaluateF 10 stateWithThrow
        (.list (.symbol "try*" none
          :: ([.list [.symbol "throw" none, .number 1]]
            ++ [.list (.symbol "catch*" none :: .symbol "e" none :: [.number 7])])))
      = (stateWithThrow, .ok (.number 7)))
    ∧ (evaluateF 10 stateWithThrow
        (.list [.symbol "try*" none, .list [.symbol "throw" none, .number 1]])
      = (stateWithThrow, .ok (.exception "" (.number 1) true))) :=
  ⟨(C3_try_catch_protocol 7 stateWithThrow stateWithThrow
    [.list [.symbol "throw" none, .number 1]] [.number 7] "e"
    [.number 7] 1 0 false [] [] rfl rfl).2.1
    stateWithThrow "" (.number 1) rfl
    ((stateWithThrow.enter_scope).insert_value_in_current_scope
      (lambda_parameter_key 0 0) (.exception "" (.number 1) false))
    (.ok (.number 7)) rfl,
   (C3_try_catch_protocol 7 stateWithThrow stateWithThrow
    [.list [.symbol "throw" none, .number 1]] [.number 7] "e"
    [.number 7] 1 0 false [] [] rfl rfl).2.2.2
    stateWithThrow stateWithThrow
    [.list [.symbol "throw" none, .number 1]]
    (.list [.symbol "throw" none, .number 1])
    (.exception "" (.number 1) true)
    rfl
    (fun l hl => by cases hl; simp)
    (fun b a l vv => by simp)
    (fun b a l vv cs => by simp)
    rfl rfl rfl⟩

/-! ## Claim C7 -/

/-- Claim C7 (counterexample): a map literal with an odd number of
non-trivia element forms is NOT a reader error: `{a}` parses successfully
as a one-element map form. -/
theorem C7_odd_map_parses_counterexample :
    read "{a}" = .ok [.map [.symbol "a" none]] :=
  rfl

/-- Claim C7 (amended): the reader imposes no parity requirement on map
literals; the map parser wraps whatever sequence of forms appears between
the braces, so `{a b c}` — three non-trivia element forms — parses
successfully (exactly the repository's own `test_read_basic` expectation,
`reader.rs` lines 276–284). -/
theorem C7_map_parser_no_parity_check :
    read "{a b c}"
      = .ok [.map [.symbol "a" none, .whitespace " ", .symbol "b" none,
                   .whitespace " ", .symbol "c" none]] :=
  rfl

/-! ## Claim C8 -/

/-- Claim C8 (counterexample): the number grammar accepts no sign: `-7`
does not parse as a (negated) number form but as the symbol `-7` (`-` is
an identifier character), and `Form::Number` carries an unsigned `u64`. -/
theorem C8_negative_number_counterexample :
    read "-7" = .ok [.symbol "-7" none] :=
  rfl

/-- Claim C8 (amended): the number parser is `digit+` with no sign and its
value is an unsigned 64-bit integer (embedded as `Nat` with the `u64`
bound): a plain digit string parses as a number, while `-5` and `+5` parse
as symbols. -/
theorem C8_number_grammar_unsigned :
    read "1337" = .ok [.number 1337]
      ∧ read "-5" = .ok [.symbol "-5" none]
      ∧ read "+5" = .ok [.symbol "+5" none] :=
  ⟨rfl, rfl, rfl⟩

end Sigil
